import Mathlib

/-!
Verification development for the python-holidays excerpt (Hungary, Thailand,
United States Government Securities).

The per-jurisdiction rule engines of `holidays/countries/hungary.py`,
`holidays/countries/thailand.py` and
`holidays/financial/us_government_securities.py` are shallowly embedded here.
Dates are represented by their proleptic-Gregorian ordinal (the value of
Python's `date.toordinal()`: day 1 is 0001-01-01, a Monday), so that
`timedelta` arithmetic becomes integer arithmetic.  Each `_populate(year)`
method becomes a pure function from the year (and the configuration it reads)
to the ordered list of (date, label) assignments it performs; the Python
`dict` semantics of `self[date] = label` is recovered by `lookupLast`, which
returns the label of the last assignment to a date (last write wins).

Python's `//` and `%` on `int` are floor division and the corresponding
nonnegative-for-positive-divisor remainder; on `Int` in this development `/`
and `%` are `Int.ediv` and `Int.emod`, which agree with Python's operators
for the positive divisors used throughout.
-/

namespace Holidays

/-- Gregorian leap-year predicate, as in Python's `calendar.isleap` used by
`datetime.date`. -/
def isLeap (y : Int) : Bool :=
  y % 4 = 0 ∧ (y % 100 ≠ 0 ∨ y % 400 = 0)

/-- Cumulative day count before month `m` in a non-leap year
(`datetime`'s `_DAYS_BEFORE_MONTH`). -/
def daysBeforeMonth (m : Int) : Int :=
  if m = 1 then 0 else if m = 2 then 31 else if m = 3 then 59
  else if m = 4 then 90 else if m = 5 then 120 else if m = 6 then 151
  else if m = 7 then 181 else if m = 8 then 212 else if m = 9 then 243
  else if m = 10 then 273 else if m = 11 then 304 else 334

/-- Leap-day correction for dates of month `m`: one day once past
February in a leap year. -/
def leapAdj (y m : Int) : Int :=
  if 2 < m ∧ isLeap y = true then 1 else 0

/-- Proleptic-Gregorian ordinal of the date `(y, m, d)`, exactly Python's
`date(y, m, d).toordinal()` for valid dates. -/
def toRD (y m d : Int) : Int :=
  365 * (y - 1) + (y - 1) / 4 - (y - 1) / 100 + (y - 1) / 400
    + daysBeforeMonth m + leapAdj y m + d

/-- Python's `date.weekday()`: Monday = 0, ..., Sunday = 6.  Ordinal 1
(0001-01-01) is a Monday. -/
def pyWeekday (d : Int) : Int := (d + 6) % 7

/-- Python's `date.isoweekday()`: Monday = 1, ..., Sunday = 7. -/
def isoWeekday (d : Int) : Int := pyWeekday d + 1

/-- Modelled from the spec: `HolidayBase._is_saturday` (weekday helper of the
base class, which is not part of this excerpt). -/
def isSaturday (d : Int) : Bool := pyWeekday d = 5

/-- Modelled from the spec: `HolidayBase._is_sunday`. -/
def isSunday (d : Int) : Bool := pyWeekday d = 6

/-- Modelled from the spec: `HolidayBase._is_monday`. -/
def isMonday (d : Int) : Bool := pyWeekday d = 0

/-- Modelled from the spec: `HolidayBase._is_friday`. -/
def isFriday (d : Int) : Bool := pyWeekday d = 4

/-- Modelled from the spec: `HolidayBase._is_weekend` (Saturday or Sunday). -/
def isWeekend (d : Int) : Bool := 5 ≤ pyWeekday d

/-- Semantics of `dateutil` `d + relativedelta(weekday=W(-1))`: the nearest
date with weekday `w` on or before `d` (`w` in Python `weekday()` encoding). -/
def wdOnOrBefore (d w : Int) : Int := d - (pyWeekday d - w) % 7

/-- Semantics of `dateutil` `d + relativedelta(weekday=W(+1))`: the nearest
date with weekday `w` on or after `d`. -/
def wdOnOrAfter (d w : Int) : Int := d + (w - pyWeekday d) % 7

/-- Step `g` of `dateutil.easter.easter` (western method): the Golden number
minus one. -/
def easterG (y : Int) : Int := y % 19

/-- Step `c` of `dateutil.easter.easter`: the century. -/
def easterC (y : Int) : Int := y / 100

/-- Step `h` of `dateutil.easter.easter` (western method). -/
def easterH (y : Int) : Int :=
  (easterC y - easterC y / 4 - (8 * easterC y + 13) / 25 + 19 * easterG y + 15) % 30

/-- Step `i` of `dateutil.easter.easter` (western method): days from 21 March
to the Paschal full moon. -/
def easterI (y : Int) : Int :=
  easterH y - (easterH y / 28) * (1 - (easterH y / 28) * (29 / (easterH y + 1))
    * ((21 - easterG y) / 11))

/-- Step `j` of `dateutil.easter.easter` (western method): the weekday of the
Paschal full moon. -/
def easterJ (y : Int) : Int :=
  (y + y / 4 + easterI y + 2 - easterC y + easterC y / 4) % 7

/-- Step `p` of `dateutil.easter.easter` with `e = 0` (western method):
Easter is `p` days after 28 March. -/
def easterP (y : Int) : Int := easterI y - easterJ y

/-- Month of western Easter Sunday, per `dateutil.easter.easter`. -/
def easterMonth (y : Int) : Int := 3 + (easterP y + 26) / 30

/-- Day of month of western Easter Sunday, per `dateutil.easter.easter`. -/
def easterDay (y : Int) : Int :=
  1 + (easterP y + 27 + (easterP y + 6) / 40) % 31

/-- Ordinal of western Easter Sunday of year `y`: the embedding of
`dateutil.easter.easter(y)`, the standard Gregorian ecclesiastical
algorithm. -/
def easterRD (y : Int) : Int := toRD y (easterMonth y) (easterDay y)

/-- Label of the last assignment `self[d] = label` in an ordered assignment
list: the Python `dict` lookup under last-write-wins accumulation (a later
assignment to the same date shadows every earlier one). -/
def lookupLast : List (Int × String) → Int → Option String
  | [], _ => none
  | e :: t, d =>
    match lookupLast t d with
    | some l => some l
    | none => if e.1 = d then some e.2 else none

/-- Embedding of `Hungary._add_with_observed_day_off(date(y, m, d), desc,
since, before, after)`.  Every call site passes `date(year, M, D)` with the
year being populated, so the method's `day.year`, `day.month` and `day.day`
are `y`, `m` and `d`.  `TU.weekday == 1`, `TH.weekday == 3`. -/
def addWithObservedDayOff (o : Bool) (y m d : Int) (desc : String)
    (since : Int) (before after : Bool) : List (Int × String) :=
  (toRD y m d, desc) ::
  (if o = true ∧ since ≤ y then
    (if pyWeekday (toRD y m d) = 1 ∧ before = true ∧ ¬(m = 1 ∧ d = 1) then
      [(toRD y m d - 1, desc ++ " előtti pihenőnap")]
    else if pyWeekday (toRD y m d) = 3 ∧ after = true then
      [(toRD y m d + 1, desc ++ " utáni pihenőnap")]
    else [])
  else [])

/-- Embedding of `Hungary._populate(y)` with observed flag `o`: the ordered
list of assignments `self[date] = label` it performs.  `Hungary` declares no
`special_holidays`, so the base-class populate contributes no assignment
(modelled from the spec's component order).  `MO.weekday == 0`. -/
def hungaryEntries (o : Bool) (y : Int) : List (Int × String) :=
  addWithObservedDayOff o y 1 1 "Újév" 2014 true true
  ++ (if 2014 ≤ y ∧ o = true ∧ pyWeekday (toRD y 12 31) = 0 then
        [(toRD y 12 31, "Újév előtti pihenőnap")] else [])
  ++ (if (1945 ≤ y ∧ y ≤ 1950) ∨ 1989 ≤ y then
        addWithObservedDayOff o y 3 15 "Nemzeti ünnep" 2010 true true else [])
  ++ (if 1950 ≤ y ∧ y ≤ 1989 then
        [(toRD y 3 21, "A Tanácsköztársaság kikiáltásának ünnepe"),
         (toRD y 4 4, "A felszabadulás ünnepe")]
        ++ (if y ≠ 1956 ∧ y ≠ 1989 then
              [(toRD y 11 7, "A nagy októberi szocialista forradalom ünnepe")]
            else [])
      else [])
  ++ (if 2017 ≤ y then [(wdOnOrBefore (easterRD y) 4, "Nagypéntek")] else [])
  ++ [(easterRD y, "Húsvét")]
  ++ (if y ≠ 1955 then [(easterRD y + 1, "Húsvét Hétfő")] else [])
  ++ [(easterRD y + 49, "Pünkösd")]
  ++ (if y ≤ 1952 ∨ 1992 ≤ y then [(easterRD y + 50, "Pünkösdhétfő")] else [])
  ++ (if 1946 ≤ y then
        addWithObservedDayOff o y 5 1 "A Munka ünnepe" 2010 true true else [])
  ++ (if 1950 ≤ y ∧ y ≤ 1953 then [(toRD y 5 2, "A Munka ünnepe")] else [])
  ++ (if 1950 ≤ y ∧ y < 1990 then [(toRD y 8 20, "A kenyér ünnepe")]
      else addWithObservedDayOff o y 8 20 "Az államalapítás ünnepe" 2010 true true)
  ++ (if 1991 ≤ y then
        addWithObservedDayOff o y 10 23 "Nemzeti ünnep" 2010 true true else [])
  ++ (if 1999 ≤ y then
        addWithObservedDayOff o y 11 1 "Mindenszentek" 2010 true true else [])
  ++ (if o = true ∧ 2010 ≤ y ∧ isWeekend (toRD y 12 24) = false then
        [(toRD y 12 24, "Szenteste")] else [])
  ++ [(toRD y 12 25, "Karácsony")]
  ++ (if y ≠ 1955 then
        addWithObservedDayOff o y 12 26 "Karácsony másnapja" 2013 false true
      else [])
  ++ (if o = true ∧ 2014 ≤ y ∧ pyWeekday (toRD y 12 31) = 0 then
        [(toRD y 12 31, "Szilveszter")] else [])

/-- Embedding of `UnitedStatesGovernmentSecurities._get_observed(d)`:
Saturday moves to the preceding Friday, Sunday to the following Monday
(`FR.weekday == 4`, `MO.weekday == 0`). -/
def getObserved (d : Int) : Int :=
  if isoWeekday d = 6 then wdOnOrBefore d 4
  else if isoWeekday d = 7 then wdOnOrAfter d 0
  else d

/-- Embedding of `UnitedStatesGovernmentSecurities._set_observed_date`:
the single assignment it performs. -/
def setObservedDate (d : Int) (name : String) : List (Int × String) :=
  if getObserved d = d then [(d, name)]
  else [(getObserved d, name ++ " (Observed)")]

/-- Embedding of `UnitedStatesGovernmentSecurities._populate(y)`: the ordered
list of assignments it performs.  The class declares no `special_holidays`
table, so the base-class populate contributes no assignment (modelled from
the spec's component order); its two ad-hoc closures are the inline `2012`
and `2018` conditionals at the end.  The class never reads the `observed`
configuration flag. -/
def usgsEntries (y : Int) : List (Int × String) :=
  (if isSaturday (toRD y 1 1) = false then
     setObservedDate (toRD y 1 1) "New Year's Day" else [])
  ++ (if 1986 ≤ y then
        [(wdOnOrAfter (toRD y 1 1) 0 + 14, "Martin Luther King Jr. Day")]
      else [])
  ++ (if y < 1971 then setObservedDate (toRD y 2 22) "Washington's Birthday"
      else [(wdOnOrAfter (toRD y 2 1) 0 + 14, "Washington's Birthday")])
  ++ (if easterRD y - 2 ≠ wdOnOrAfter (toRD y 3 12 + 21) 4 then
        [(easterRD y - 2, "Good Friday")] else [])
  ++ (if y < 1971 then setObservedDate (toRD y 5 30) "Memorial Day"
      else [(wdOnOrBefore (toRD y 5 31) 0, "Memorial Day")])
  ++ (if 2021 ≤ y then
        setObservedDate (toRD y 6 19) "Juneteenth National Independence Day"
      else [])
  ++ setObservedDate (toRD y 7 4) "Independence Day"
  ++ [(wdOnOrAfter (toRD y 9 1) 0, "Labor Day")]
  ++ setObservedDate (toRD y 10 12) "Columbus Day"
  ++ (if isSaturday (toRD y 11 11) = false then
        setObservedDate (toRD y 11 11) "Veteran's Day" else [])
  ++ [(wdOnOrAfter (toRD y 11 1) 3 + 21, "Thanksgiving Day")]
  ++ setObservedDate (toRD y 12 25) "Christmas Day"
  ++ (if y = 2012 then [(toRD y 10 30, "Hurricane Sandy")] else [])
  ++ (if y = 2018 then [(toRD y 12 5, "Death of George H.W. Bush")] else [])

/-- Modelled from the spec: the `_ThaiLuniSolar` calculator of
`holidays/utils.py` is not part of this excerpt.  It supplies, per Gregorian
year, the dates (or absence, outside its supported 1941-2057 window) of the
four Buddhist lunisolar feasts consulted by `Thailand._populate`. -/
structure ThaiLuniSolar where
  makhaBucha : Int → Option Int
  visakhaBucha : Int → Option Int
  asarnhaBucha : Int → Option Int
  khaoPhansa : Int → Option Int

/-- Embedding of the local helper `_add_with_observed(dt, holiday_name)` of
`Thailand._populate`: the original entry, plus an in-lieu entry on the
following workday when the date falls on a weekend, the observed flag is set,
and the populated year lies in an era with automatic in-lieu days
(1961-1973, 1995-1997 or 2001 onward). -/
def addWithObserved (o : Bool) (year dt : Int) (name : String) :
    List (Int × String) :=
  (dt, name) ::
  (if (1961 ≤ year ∧ year ≤ 1973) ∨ (1995 ≤ year ∧ year ≤ 1997) ∨ 2001 ≤ year then
    (if o = true ∧ isWeekend dt = true then
      [(dt + (if isSaturday dt = true then 2 else 1), name ++ " (in lieu)")]
    else [])
  else [])

/-- The rows of `Thailand.special_holidays`: year, then the (month, day,
label) literal overrides of that year in declaration order. -/
def thailandSpecialRows : List (Int × List (Int × Int × String)) :=
  [(1992, [(5, 18, "Special In Lieu Holiday"),
           (12, 7, "Special In Lieu Holiday")]),
   (1993, [(3, 8, "Special In Lieu Holiday"),
           (5, 3, "Special In Lieu Holiday"),
           (10, 25, "Special In Lieu Holiday"),
           (12, 6, "Special In Lieu Holiday")]),
   (1994, [(1, 3, "Special In Lieu Holiday"),
           (5, 2, "Special In Lieu Holiday"),
           (7, 25, "Special In Lieu Holiday"),
           (10, 24, "Special In Lieu Holiday"),
           (12, 12, "Special In Lieu Holiday")]),
   (1996, [(6, 10, "HM King Bhumibol Adulyadej's Golden Jubilee")]),
   (1998, [(5, 11, "Special In Lieu Holiday"),
           (12, 7, "Special In Lieu Holiday")]),
   (1999, [(5, 3, "Special In Lieu Holiday"),
           (5, 31, "Special In Lieu Holiday"),
           (10, 25, "Special In Lieu Holiday"),
           (12, 6, "Special In Lieu Holiday")]),
   (2000, [(1, 3, "Special In Lieu Holiday"),
           (2, 21, "Special In Lieu Holiday"),
           (8, 14, "Special In Lieu Holiday"),
           (12, 11, "Special In Lieu Holiday"),
           (12, 29, "Thai Election Day")]),
   (2006, [(4, 19, "Thai Election Day"),
           (6, 9, "HM King Bhumibol Adulyadej's 60th Anniversary of Accession Event"),
           (6, 12, "HM King Bhumibol Adulyadej's 60th Anniversary of Accession Event"),
           (6, 13, "HM King Bhumibol Adulyadej's 60th Anniversary of Accession Event"),
           (9, 20, "Emergency Lockdown (Thai Military Coup d'état)")]),
   (2007, [(12, 24, "Thai Election Day (in lieu)")]),
   (2009, [(1, 2, "Bridge Public Holiday"),
           (4, 10, "Emergency Lockdown (Thai Political Unrest)"),
           (4, 16, "Emergency Lockdown (Thai Political Unrest)"),
           (4, 17, "Emergency Lockdown (Thai Political Unrest)"),
           (7, 6, "Bridge Public Holiday")]),
   (2010, [(5, 20, "Bridge Public Holiday"),
           (5, 21, "Bridge Public Holiday"),
           (8, 13, "Bridge Public Holiday")]),
   (2011, [(5, 16, "Bridge Public Holiday"),
           (10, 27, "Emergency Lockdown (2011 Thailand Floods)"),
           (10, 28, "Emergency Lockdown (2011 Thailand Floods)"),
           (10, 31, "Emergency Lockdown (2011 Thailand Floods)")]),
   (2012, [(4, 9, "Bridge Public Holiday")]),
   (2013, [(12, 30, "Bridge Public Holiday")]),
   (2014, [(8, 11, "Bridge Public Holiday")]),
   (2015, [(1, 2, "Bridge Public Holiday"),
           (5, 4, "Bridge Public Holiday")]),
   (2016, [(5, 6, "Bridge Public Holiday"),
           (7, 18, "Bridge Public Holiday"),
           (10, 14, "Day of Mourning for HM King Bhumibol Adulyadej")]),
   (2017, [(10, 26, "HM King Bhumibol Adulyadej's Royal Cremation Ceremony")]),
   (2019, [(5, 6, "HM King Maha Vajiralongkorn's Coronation Celebrations")]),
   (2020, [(7, 27, "Songkran Festival (in lieu)"),
           (9, 4, "Songkran Festival (in lieu)"),
           (9, 7, "Songkran Festival (in lieu)"),
           (11, 19, "Bridge Public Holiday"),
           (11, 20, "Bridge Public Holiday"),
           (12, 11, "Bridge Public Holiday")]),
   (2021, [(2, 12, "Bridge Public Holiday"),
           (4, 12, "Bridge Public Holiday"),
           (9, 24, "Bridge Public Holiday")]),
   (2022, [(7, 15, "Bridge Public Holiday"),
           (7, 29, "Bridge Public Holiday"),
           (10, 14, "Bridge Public Holiday"),
           (12, 30, "Bridge Public Holiday")]),
   (2023, [(5, 5, "Bridge Public Holiday")])]

/-- Embedding of the special-table pass of the base-class populate for
`Thailand`: `special_holidays.get(year, ())` followed by
`self[date(year, month, day)] = name` for each row. -/
def thailandSpecials (y : Int) : List (Int × String) :=
  (((thailandSpecialRows.find? (fun e => e.1 == y)).map (fun e => e.2)).getD []).map
    (fun t => (toRD y t.1 t.2.1, t.2.2))

/-- The rows of the `raeknakhwan_dates` literal table of
`Thailand._populate`: year, month, day of each recorded Royal Ploughing
Ceremony. -/
def raeknakhwanRows : List (Int × Int × Int) :=
  [(1997, 5, 13), (1998, 5, 13), (2000, 5, 15), (2001, 5, 16), (2002, 5, 9),
   (2003, 5, 8), (2004, 5, 7), (2005, 5, 11), (2006, 5, 11), (2007, 5, 10),
   (2008, 5, 9), (2009, 5, 11), (2010, 5, 10), (2011, 5, 13), (2012, 5, 9),
   (2013, 5, 13), (2014, 5, 9), (2015, 5, 13), (2016, 5, 9), (2017, 5, 12),
   (2018, 5, 14), (2019, 5, 9), (2020, 5, 11), (2021, 5, 13), (2022, 5, 17),
   (2023, 5, 11)]

/-- Lookup into the `raeknakhwan_dates` table (`year in raeknakhwan_dates`
then `raeknakhwan_dates[year]`). -/
def raeknakhwanDates (y : Int) : Option (Int × Int) :=
  (raeknakhwanRows.find? (fun e => e.1 == y)).map (fun e => e.2)

/-- Embedding of one `if x := self.thls.X_date(year): self._add_with_observed(x, name)`
block of `Thailand._populate`: nothing when the calculator returns no date. -/
def lunisolarObservedSeg (o : Bool) (y : Int) (v : Option Int) (name : String) :
    List (Int × String) :=
  match v with
  | some dt => addWithObserved o y dt name
  | none => []

/-- Embedding of one `if x := self.thls.X_date(year): self[x] = name` block of
`Thailand._populate` (no observed handling): nothing when the calculator
returns no date. -/
def lunisolarRawSeg (v : Option Int) (name : String) : List (Int × String) :=
  match v with
  | some dt => [(dt, name)]
  | none => []

/-- Embedding of the dedicated Asarnha Bucha in-lieu block of
`Thailand._populate`: inside the observed-era guard, a Friday feast pushes the
Buddhist Lent in-lieu day to Monday (+3), a weekend feast pushes the Asarnha
Bucha in-lieu day past Buddhist Lent Day (+2). -/
def asarnhaInLieuSeg (o : Bool) (y : Int) (v : Option Int) :
    List (Int × String) :=
  match v with
  | some dt =>
    if o = true ∧ ((1961 ≤ y ∧ y ≤ 1973) ∨ (1995 ≤ y ∧ y ≤ 1997) ∨ 2001 ≤ y) then
      (if isFriday dt = true then [(dt + 3, "Buddhist Lent Day (in lieu)")]
       else if isWeekend dt = true then [(dt + 2, "Asarnha Bucha (in lieu)")]
       else [])
    else []
  | none => []

/-- Embedding of the Royal Ploughing Ceremony block of `Thailand._populate`:
the recorded table date when the year has one, otherwise 13 May within
1957-1996, otherwise nothing. -/
def raekSeg (o : Bool) (y : Int) : List (Int × String) :=
  match raeknakhwanDates y with
  | some md => addWithObserved o y (toRD y md.1 md.2) "Royal Ploughing Ceremony"
  | none =>
    if 1957 ≤ y ∧ y ≤ 1996 then
      addWithObserved o y (toRD y 5 13) "Royal Ploughing Ceremony"
    else []

/-- Embedding of the rule logic of `Thailand._populate(y)` after the special
table: every assignment performed after `super()._populate(year)`, in program
order. -/
def thailandGeneric (thls : ThaiLuniSolar) (o : Bool) (y : Int) :
    List (Int × String) :=
  addWithObserved o y (toRD y 1 1) "New Year's Day"
  ++ (if o = true ∧ ((1995 ≤ y ∧ y ≤ 1997) ∨ 2001 ≤ y) then
        (if isSaturday (toRD (y - 1) 12 31) = true then
          [(toRD y 1 3, "New Year's Eve (in lieu)")]
        else if isSunday (toRD (y - 1) 12 31) = true then
          [(toRD y 1 2, "New Year's Eve (in lieu)")]
        else [])
      else [])
  ++ addWithObserved o y (toRD y 4 6) "Chakri Memorial Day"
  ++ (if 1948 ≤ y ∧ y ≤ 1953 then
        [(toRD y 4 13, "Songkran Festival"), (toRD y 4 14, "Songkran Festival"),
         (toRD y 4 15, "Songkran Festival")]
      else if 1957 ≤ y ∧ y ≤ 1988 then
        addWithObserved o y (toRD y 4 13) "Songkran Festival"
      else if 1989 ≤ y ∧ y ≤ 1997 then
        [(toRD y 4 12, "Songkran Festival"), (toRD y 4 13, "Songkran Festival"),
         (toRD y 4 14, "Songkran Festival")]
      else if 1998 ≤ y ∧ y ≠ 2020 then
        [(toRD y 4 13, "Songkran Festival"), (toRD y 4 14, "Songkran Festival"),
         (toRD y 4 15, "Songkran Festival")]
      else [])
  ++ (if o = true ∧ ((1995 ≤ y ∧ y ≤ 1997) ∨ 2001 ≤ y) then
        (if isSaturday (if 2001 ≤ y then toRD y 4 15 else toRD y 4 14) = true then
          [((if 2001 ≤ y then toRD y 4 15 else toRD y 4 14) + 2,
            "Songkran Festival (in lieu)")]
        else if isSunday (if 2001 ≤ y then toRD y 4 15 else toRD y 4 14) = true then
          [((if 2001 ≤ y then toRD y 4 15 else toRD y 4 14) + 1,
            "Songkran Festival (in lieu)")]
        else if isMonday (if 2001 ≤ y then toRD y 4 15 else toRD y 4 14) = true then
          [((if 2001 ≤ y then toRD y 4 15 else toRD y 4 14) + 1,
            "Songkran Festival (in lieu)")]
        else [])
      else [])
  ++ (if 1974 ≤ y then addWithObserved o y (toRD y 5 1) "National Labour Day"
      else [])
  ++ (if y ≤ 1959 then addWithObserved o y (toRD y 6 24) "National Day" else [])
  ++ (if 1958 ≤ y ∧ y ≤ 2016 then addWithObserved o y (toRD y 5 5) "Coronation Day"
      else if 2020 ≤ y then addWithObserved o y (toRD y 5 4) "Coronation Day"
      else [])
  ++ (if 2019 ≤ y then
        addWithObserved o y (toRD y 6 3) "HM Queen Suthida's Birthday" else [])
  ++ (if 2017 ≤ y then
        addWithObserved o y (toRD y 7 28) "HM King Maha Vajiralongkorn's Birthday"
      else [])
  ++ (if 1976 ≤ y ∧ y ≤ 2016 then
        addWithObserved o y (toRD y 8 12) "HM Queen Sirikit's Birthday"
      else if 2017 ≤ y then
        addWithObserved o y (toRD y 8 12) "HM Queen Sirikit The Queen Mother's Birthday"
      else [])
  ++ (if 1950 ≤ y ∧ y ≤ 1957 then
        addWithObserved o y (toRD y 4 15) "National Mother's Day"
      else if 1976 ≤ y then
        addWithObserved o y (toRD y 8 12) "National Mother's Day"
      else [])
  ++ (if 2017 ≤ y then
        addWithObserved o y (toRD y 10 13) "HM King Bhumibol Adulyadej Memorial Day"
      else [])
  ++ addWithObserved o y (toRD y 10 23) "Chulalongkorn Memorial Day"
  ++ (if 1960 ≤ y then
        addWithObserved o y (toRD y 12 5) "HM King Bhumibol Adulyadej's Birthday"
      else [])
  ++ (if 1980 ≤ y then
        addWithObserved o y (toRD y 12 5) "National Father's Day" else [])
  ++ addWithObserved o y (toRD y 12 10) "Constitution Day"
  ++ [(toRD y 12 31, "New Year's Eve")]
  ++ lunisolarObservedSeg o y (thls.makhaBucha y) "Makha Bucha"
  ++ lunisolarObservedSeg o y (thls.visakhaBucha y) "Visakha Bucha"
  ++ lunisolarRawSeg (thls.asarnhaBucha y) "Asarnha Bucha"
  ++ lunisolarRawSeg (thls.khaoPhansa y) "Buddhist Lent Day"
  ++ asarnhaInLieuSeg o y (thls.asarnhaBucha y)
  ++ raekSeg o y

/-- Embedding of `Thailand._populate(y)`: nothing at all for years capped off
at 1940, otherwise the special-table entries for the year (the base-class
populate, modelled from the spec's component order: special overrides are
applied first) followed by the rule logic. -/
def thailandEntries (thls : ThaiLuniSolar) (o : Bool) (y : Int) :
    List (Int × String) :=
  if y ≤ 1940 then [] else thailandSpecials y ++ thailandGeneric thls o y

/-- Decidable check that an optional lunisolar date lies in a closed
ordinal range. -/
def optInRange (v : Option Int) (lo hi : Int) : Bool :=
  match v with
  | none => true
  | some d => lo ≤ d ∧ d ≤ hi

/-- Modelled from the spec: the four Buddhist lunisolar feasts consulted by
`Thailand._populate` (Makha Bucha, Visakha Bucha, Asarnha Bucha and the start
of Buddhist Lent) fall, whenever defined, between 1 January and 1 September
of the Gregorian year they are computed for. -/
def lunisolarPlausible (thls : ThaiLuniSolar) (y : Int) : Bool :=
  optInRange (thls.makhaBucha y) (toRD y 1 1) (toRD y 9 1)
  && optInRange (thls.visakhaBucha y) (toRD y 1 1) (toRD y 9 1)
  && optInRange (thls.asarnhaBucha y) (toRD y 1 1) (toRD y 9 1)
  && optInRange (thls.khaoPhansa y) (toRD y 1 1) (toRD y 9 1)

/-- A sample lunisolar calculator carrying the historical feast dates of the
years 2011 and 2023 (Makha Bucha 2011-02-18 and 2023-03-06, Visakha Bucha
2011-05-17 and 2023-06-03, Asarnha Bucha 2011-07-15 and 2023-08-01, Buddhist
Lent start 2011-07-16 and 2023-08-02), used to instantiate witnesses. -/
def sampleThls : ThaiLuniSolar where
  makhaBucha y :=
    if y = 2011 then some (toRD 2011 2 18)
    else if y = 2023 then some (toRD 2023 3 6) else none
  visakhaBucha y :=
    if y = 2011 then some (toRD 2011 5 17)
    else if y = 2023 then some (toRD 2023 6 3) else none
  asarnhaBucha y :=
    if y = 2011 then some (toRD 2011 7 15)
    else if y = 2023 then some (toRD 2023 8 1) else none
  khaoPhansa y :=
    if y = 2011 then some (toRD 2011 7 16)
    else if y = 2023 then some (toRD 2023 8 2) else none

/-- The closed list of labels that `Thailand._populate`'s rule logic can
attach to an assignment: every literal holiday name occurring after the
special table, together with its " (in lieu)" variant where the observed
path applies. -/
def thaiGenericLabels : List String :=
  ["New Year's Day", "New Year's Day (in lieu)", "New Year's Eve (in lieu)",
   "Chakri Memorial Day", "Chakri Memorial Day (in lieu)",
   "Songkran Festival", "Songkran Festival (in lieu)",
   "National Labour Day", "National Labour Day (in lieu)",
   "National Day", "National Day (in lieu)",
   "Coronation Day", "Coronation Day (in lieu)",
   "HM Queen Suthida's Birthday", "HM Queen Suthida's Birthday (in lieu)",
   "HM King Maha Vajiralongkorn's Birthday",
   "HM King Maha Vajiralongkorn's Birthday (in lieu)",
   "HM Queen Sirikit's Birthday", "HM Queen Sirikit's Birthday (in lieu)",
   "HM Queen Sirikit The Queen Mother's Birthday",
   "HM Queen Sirikit The Queen Mother's Birthday (in lieu)",
   "National Mother's Day", "National Mother's Day (in lieu)",
   "HM King Bhumibol Adulyadej Memorial Day",
   "HM King Bhumibol Adulyadej Memorial Day (in lieu)",
   "Chulalongkorn Memorial Day", "Chulalongkorn Memorial Day (in lieu)",
   "HM King Bhumibol Adulyadej's Birthday",
   "HM King Bhumibol Adulyadej's Birthday (in lieu)",
   "National Father's Day", "National Father's Day (in lieu)",
   "Constitution Day", "Constitution Day (in lieu)",
   "New Year's Eve",
   "Makha Bucha", "Makha Bucha (in lieu)",
   "Visakha Bucha", "Visakha Bucha (in lieu)",
   "Asarnha Bucha", "Asarnha Bucha (in lieu)",
   "Buddhist Lent Day", "Buddhist Lent Day (in lieu)",
   "Royal Ploughing Ceremony", "Royal Ploughing Ceremony (in lieu)"]

/-! Lemmas about the map semantics. -/

/-- Appending assignment lists: the later block is consulted first. -/
theorem lookupLast_append (a b : List (Int × String)) (d : Int) :
    lookupLast (a ++ b) d = (lookupLast b d).elim (lookupLast a d) some := by
  induction a with
  | nil =>
    cases h : lookupLast b d <;> simp [h, Option.elim, lookupLast]
  | cons e t ih =>
    show (match lookupLast (t ++ b) d with
          | some l => some l
          | none => if e.1 = d then some e.2 else none) = _
    rw [ih]
    cases h : lookupLast b d <;> simp [Option.elim, lookupLast]

/-- A later block that misses the date leaves the earlier lookup intact. -/
theorem lookupLast_append_right_none (a b : List (Int × String)) (d : Int)
    (h : lookupLast b d = none) : lookupLast (a ++ b) d = lookupLast a d := by
  rw [lookupLast_append, h]
  rfl

/-- A hit in the later block is the final answer. -/
theorem lookupLast_append_right_some (a b : List (Int × String)) (d : Int)
    (l : String) (h : lookupLast b d = some l) :
    lookupLast (a ++ b) d = some l := by
  rw [lookupLast_append, h]
  rfl

/-- A successful lookup comes from an assignment actually in the list. -/
theorem lookupLast_mem (es : List (Int × String)) (d : Int) (l : String)
    (h : lookupLast es d = some l) : (d, l) ∈ es := by
  induction es with
  | nil => cases h
  | cons e t ih =>
    obtain ⟨e1, e2⟩ := e
    revert h
    show (match lookupLast t d with
          | some l => some l
          | none => if e1 = d then some e2 else none) = some l → _
    cases ht : lookupLast t d with
    | some l' =>
      intro h
      cases h
      exact List.mem_cons_of_mem _ (ih ht)
    | none =>
      intro h
      by_cases he : e1 = d
      · rw [if_pos he] at h
        cases h
        subst he
        exact List.mem_cons_self _ _
      · rw [if_neg he] at h
        cases h

/-- A list none of whose assignments targets `d` yields no label at `d`. -/
theorem lookupLast_none (es : List (Int × String)) (d : Int)
    (h : ∀ p ∈ es, p.1 ≠ d) : lookupLast es d = none := by
  cases hl : lookupLast es d with
  | none => rfl
  | some l => exact absurd rfl (h _ (lookupLast_mem es d l hl))

/-- A list none of whose assignments carries label `l` never reports `l`. -/
theorem lookupLast_no_label (es : List (Int × String)) (l : String)
    (h : ∀ p ∈ es, p.2 ≠ l) : ∀ d, lookupLast es d ≠ some l := by
  intro d hl
  exact h _ (lookupLast_mem es d l hl) rfl

/-! Lemmas about strings built by suffixing. -/

/-- The characters of an appended string. -/
theorem string_data_append (s t : String) : (s ++ t).data = s.data ++ t.data :=
  String.data_append s t

/-- A string whose reversed character list does not start with the reversal
of `s` is not of the form `n ++ s`. -/
theorem ne_append_of_take_rev (c n s : String)
    (h : List.take s.data.length c.data.reverse ≠ s.data.reverse) :
    c ≠ n ++ s := by
  intro hc
  apply h
  rw [hc, string_data_append, List.reverse_append]
  rw [← List.length_reverse s.data, List.take_left]

/-- No string equals itself with a nonempty suffix appended. -/
theorem ne_self_append (n s : String) (hs : s.data.length ≠ 0) :
    n ≠ n ++ s := by
  intro h
  have hl := congrArg (fun t => t.data.length) h
  simp only [string_data_append, List.length_append] at hl
  omega

/-! Lemmas about the weekday helpers. -/

/-- The observed-shift of the `USGS` market: Saturday moves one day back,
Sunday one day forward, weekdays stay. -/
theorem getObserved_cases (d : Int) :
    getObserved d =
      if pyWeekday d = 5 then d - 1
      else if pyWeekday d = 6 then d + 1 else d := by
  unfold getObserved isoWeekday wdOnOrBefore wdOnOrAfter pyWeekday
  split_ifs <;> omega

/-- The next date with a given weekday lies within the following week. -/
theorem wdOnOrAfter_bounds (d w : Int) :
    d ≤ wdOnOrAfter d w ∧ wdOnOrAfter d w ≤ d + 6 := by
  unfold wdOnOrAfter pyWeekday
  omega

/-- The previous date with a given weekday lies within the preceding week. -/
theorem wdOnOrBefore_bounds (d w : Int) :
    d - 6 ≤ wdOnOrBefore d w ∧ wdOnOrBefore d w ≤ d := by
  unfold wdOnOrBefore pyWeekday
  omega

/-! Lemmas about the Easter computation. -/

/-- Leap years arithmetically. -/
theorem isLeap_iff (y : Int) :
    isLeap y = true ↔ y % 4 = 0 ∧ (y % 100 ≠ 0 ∨ y % 400 = 0) := by
  simp [isLeap]

/-- Step `h` is a remainder modulo 30. -/
theorem easterH_bounds (y : Int) : 0 ≤ easterH y ∧ easterH y < 30 := by
  unfold easterH
  omega

/-- Step `g` is a remainder modulo 19. -/
theorem easterG_bounds (y : Int) : 0 ≤ easterG y ∧ easterG y ≤ 18 := by
  unfold easterG
  omega

/-- The Paschal full moon falls between 0 and 28 days after 21 March. -/
theorem easterI_bounds (y : Int) : 0 ≤ easterI y ∧ easterI y ≤ 28 := by
  obtain ⟨h0, h1⟩ := easterH_bounds y
  obtain ⟨g0, g1⟩ := easterG_bounds y
  unfold easterI
  rcases (by omega : easterH y ≤ 27 ∨ easterH y = 28 ∨ easterH y = 29) with h | h | h
  · have e : easterH y / 28 = 0 := by omega
    rw [e]
    simp
    omega
  · rw [h]
    have e1 : (28 : Int) / 28 = 1 := by decide
    have e2 : (29 : Int) / (28 + 1) = 1 := by decide
    rw [e1, e2]
    have e3 : 0 ≤ (21 - easterG y) / 11 ∧ (21 - easterG y) / 11 ≤ 1 := by omega
    omega
  · rw [h]
    have e1 : (29 : Int) / 28 = 1 := by decide
    have e2 : (29 : Int) / (29 + 1) = 0 := by decide
    rw [e1, e2]
    omega

/-- Step `p` ranges over -6 to 28: Easter falls between 22 March and
25 April. -/
theorem easterP_bounds (y : Int) : -6 ≤ easterP y ∧ easterP y ≤ 28 := by
  obtain ⟨i0, i1⟩ := easterI_bounds y
  unfold easterP easterJ
  omega

/-- Easter's ordinal, written through step `p`: `p` days after 28 March. -/
theorem easterRD_eq (y : Int) :
    easterRD y = 365 * (y - 1) + (y - 1) / 4 - (y - 1) / 100 + (y - 1) / 400
      + 87 + leapAdj y 3 + easterP y := by
  obtain ⟨p0, p1⟩ := easterP_bounds y
  unfold easterRD toRD
  rcases (by omega : easterP y ≤ 3 ∨ 4 ≤ easterP y) with h | h
  · have hm : easterMonth y = 3 := by
      unfold easterMonth
      omega
    have hd : easterDay y = easterP y + 28 := by
      unfold easterDay
      omega
    rw [hm, hd]
    norm_num [daysBeforeMonth]
    omega
  · have hm : easterMonth y = 4 := by
      unfold easterMonth
      omega
    have hd : easterDay y = easterP y - 3 := by
      unfold easterDay
      omega
    rw [hm, hd]
    have h43 : leapAdj y 4 = leapAdj y 3 := by
      unfold leapAdj
      norm_num
    norm_num [daysBeforeMonth]
    omega

/-- Easter Sunday's ordinal is divisible by 7: in the ordinal encoding,
the algorithm always lands on a Sunday. -/
theorem easterRD_sunday (y : Int) : easterRD y % 7 = 0 := by
  have hcc : y / 100 / 4 = y / 400 := by omega
  rw [easterRD_eq]
  have h3 : leapAdj y 3 = if isLeap y = true then 1 else 0 := by
    unfold leapAdj
    norm_num
  rw [h3]
  unfold easterP easterJ
  have hc : easterC y = y / 100 := rfl
  rw [hc, hcc]
  rcases Bool.eq_false_or_eq_true (isLeap y) with hb | hb
  · have hp : y % 4 = 0 ∧ (y % 100 ≠ 0 ∨ y % 400 = 0) := (isLeap_iff y).mp hb
    rw [if_pos hb]
    have hsplit : (y - 1) / 4 - (y - 1) / 100 + (y - 1) / 400 + 1
        = y / 4 - y / 100 + y / 400 := by omega
    omega
  · have hp : ¬(y % 4 = 0 ∧ (y % 100 ≠ 0 ∨ y % 400 = 0)) := by
      rw [← isLeap_iff, hb]
      simp
    rw [if_neg (by rw [hb]; simp)]
    have hsplit : (y - 1) / 4 - (y - 1) / 100 + (y - 1) / 400
        = y / 4 - y / 100 + y / 400 := by omega
    omega

/-- Easter falls between 22 March and 25 April of its year. -/
theorem easterRD_range (y : Int) :
    toRD y 3 22 ≤ easterRD y ∧ easterRD y ≤ toRD y 4 25 := by
  obtain ⟨p0, p1⟩ := easterP_bounds y
  rw [easterRD_eq]
  unfold toRD
  have h43 : leapAdj y 4 = leapAdj y 3 := by
    unfold leapAdj
    norm_num
  norm_num [daysBeforeMonth]
  omega

/-- Easter is a Sunday in the Python weekday encoding, so the Friday on or
before it (Hungary's `easter_date + rd(weekday=FR(-1))`) is two days
earlier: Good Friday. -/
theorem wdOnOrBefore_easter (y : Int) :
    wdOnOrBefore (easterRD y) 4 = easterRD y - 2 := by
  have hs := easterRD_sunday y
  unfold wdOnOrBefore pyWeekday
  omega

/-! Membership dissection: which assignments a populate run can contain. -/

/-- Case split for membership in a conditional block. -/
theorem mem_ite {c : Prop} [Decidable c] {X Y : List (Int × String)}
    {p : Int × String} (h : p ∈ (if c then X else Y)) :
    (c ∧ p ∈ X) ∨ (¬c ∧ p ∈ Y) := by
  by_cases hc : c
  · rw [if_pos hc] at h
    exact Or.inl ⟨hc, h⟩
  · rw [if_neg hc] at h
    exact Or.inr ⟨hc, h⟩

/-- Membership in a conditional block with empty alternative. -/
theorem mem_ite_nil {c : Prop} [Decidable c] {X : List (Int × String)}
    {p : Int × String} (h : p ∈ (if c then X else [])) : c ∧ p ∈ X := by
  rcases mem_ite h with h | h
  · exact h
  · exact absurd h.2 (List.not_mem_nil p)

/-- The assignments a `_add_with_observed_day_off` call can perform: the raw
entry, or a swapped day off on the adjacent day. -/
theorem mem_awodo {o : Bool} {y m d since : Int} {desc : String}
    {before after : Bool} {p : Int × String}
    (hp : p ∈ addWithObservedDayOff o y m d desc since before after) :
    p = (toRD y m d, desc)
    ∨ (¬(m = 1 ∧ d = 1) ∧ p = (toRD y m d - 1, desc ++ " előtti pihenőnap"))
    ∨ p = (toRD y m d + 1, desc ++ " utáni pihenőnap") := by
  unfold addWithObservedDayOff at hp
  rcases List.mem_cons.mp hp with h | h
  · exact Or.inl h
  · obtain ⟨-, h⟩ := mem_ite_nil h
    rcases mem_ite h with ⟨hc, h⟩ | ⟨-, h⟩
    · exact Or.inr (Or.inl ⟨hc.2.2, List.mem_singleton.mp h⟩)
    · obtain ⟨-, h⟩ := mem_ite_nil h
      exact Or.inr (Or.inr (List.mem_singleton.mp h))

/-- First component of an assignment equation. -/
theorem fst_of_eq {p : Int × String} {x : Int} {s : String}
    (h : p = (x, s)) : p.1 = x := by
  rw [h]

/-- Second component of an assignment equation. -/
theorem snd_of_eq {p : Int × String} {x : Int} {s : String}
    (h : p = (x, s)) : p.2 = s := by
  rw [h]

/-- The assignment a `_set_observed_date` call performs: the raw date with
the plain name, or — only when the observed shift moves the date — the
shifted date with the suffixed name. -/
theorem mem_setObservedDate {d : Int} {name : String} {p : Int × String}
    (hp : p ∈ setObservedDate d name) :
    p = (d, name)
    ∨ (getObserved d ≠ d ∧ p = (getObserved d, name ++ " (Observed)")) := by
  unfold setObservedDate at hp
  rcases mem_ite hp with ⟨-, h⟩ | ⟨hc, h⟩
  · exact Or.inl (List.mem_singleton.mp h)
  · exact Or.inr ⟨hc, List.mem_singleton.mp h⟩

/-- Any `_set_observed_date` assignment lands within a day of the raw
date. -/
theorem setObs_date_range {dt : Int} {name : String} {p : Int × String}
    (hp : p ∈ setObservedDate dt name) :
    dt - 1 ≤ p.1 ∧ p.1 ≤ dt + 1 := by
  rcases mem_setObservedDate hp with he | ⟨-, he⟩ <;> rw [fst_of_eq he]
  · omega
  · rw [getObserved_cases dt]
    split_ifs <;> omega

/-- The assignments a Thailand `_add_with_observed` call can perform: the raw
entry, or — only with the observed flag, on a weekend, in an automatic
in-lieu era — the in-lieu entry on the following Monday. -/
theorem mem_addWithObserved {o : Bool} {year dt : Int} {name : String}
    {p : Int × String} (hp : p ∈ addWithObserved o year dt name) :
    p = (dt, name)
    ∨ (((1961 ≤ year ∧ year ≤ 1973) ∨ (1995 ≤ year ∧ year ≤ 1997) ∨ 2001 ≤ year)
       ∧ o = true ∧ isWeekend dt = true
       ∧ p = (dt + (if isSaturday dt = true then 2 else 1), name ++ " (in lieu)")) := by
  unfold addWithObserved at hp
  rcases List.mem_cons.mp hp with h | h
  · exact Or.inl h
  · obtain ⟨hera, h⟩ := mem_ite_nil h
    obtain ⟨how, h⟩ := mem_ite_nil h
    exact Or.inr ⟨hera, how.1, how.2, List.mem_singleton.mp h⟩

/-- Any `_add_with_observed` assignment lands within two days after the raw
date. -/
theorem awo_date_range {o : Bool} {year dt : Int} {name : String}
    {p : Int × String} (hp : p ∈ addWithObserved o year dt name) :
    dt ≤ p.1 ∧ p.1 ≤ dt + 2 := by
  rcases mem_addWithObserved hp with he | ⟨-, -, -, he⟩ <;> rw [fst_of_eq he]
  · omega
  · split_ifs <;> omega

/-- Any `_add_with_observed_day_off` assignment lands within a day of the
raw date. -/
theorem awodo_date_range {o : Bool} {y m d since : Int} {desc : String}
    {before after : Bool} {p : Int × String}
    (hp : p ∈ addWithObservedDayOff o y m d desc since before after) :
    toRD y m d - 1 ≤ p.1 ∧ p.1 ≤ toRD y m d + 1 := by
  rcases mem_awodo hp with he | ⟨-, he⟩ | he <;> rw [fst_of_eq he] <;> omega

/-- Looking up the head date of a cons cell. -/
theorem lookupLast_cons (e : Int × String) (t : List (Int × String)) (d : Int) :
    lookupLast (e :: t) d
      = (lookupLast t d).elim (if e.1 = d then some e.2 else none) some := by
  cases h : lookupLast t d <;> simp only [lookupLast, h, Option.elim]

/-- A date that does get assigned yields some label. -/
theorem lookupLast_ne_none (es : List (Int × String)) (d : Int) (l : String)
    (hmem : (d, l) ∈ es) : lookupLast es d ≠ none := by
  induction es with
  | nil => cases hmem
  | cons e t ih =>
    rw [lookupLast_cons]
    cases ht : lookupLast t d with
    | some l' => simp [Option.elim]
    | none =>
      rcases List.mem_cons.mp hmem with he | ht2
      · rw [← he]
        simp [Option.elim]
      · exact absurd ht (ih ht2)

/-- When every assignment to a date carries the same label, the lookup
reports that label as soon as the date is assigned at all. -/
theorem lookupLast_unique (es : List (Int × String)) (d : Int) (l : String)
    (hmem : (d, l) ∈ es) (huniq : ∀ p ∈ es, p.1 = d → p.2 = l) :
    lookupLast es d = some l := by
  induction es with
  | nil => cases hmem
  | cons e t ih =>
    rw [lookupLast_cons]
    cases ht : lookupLast t d with
    | some l' =>
      have he : l' = l :=
        huniq _ (List.mem_cons_of_mem e (lookupLast_mem t d l' ht)) rfl
      rw [he]
      simp [Option.elim]
    | none =>
      rcases List.mem_cons.mp hmem with he | ht2
      · rw [← he]
        simp [Option.elim]
      · exact absurd ht (lookupLast_ne_none t d l ht2)

/-- Lookup misses a conditional block whose content it misses. -/
theorem lookupLast_ite_none {c : Prop} [Decidable c] {X : List (Int × String)}
    {d : Int} (h : lookupLast X d = none) :
    lookupLast (if c then X else []) d = none := by
  by_cases hc : c
  · rw [if_pos hc]
    exact h
  · rw [if_neg hc]
    rfl

/-- Lookup misses a two-sided conditional block both of whose sides it
misses. -/
theorem lookupLast_ite_none2 {c : Prop} [Decidable c]
    {X Y : List (Int × String)} {d : Int} (hx : lookupLast X d = none)
    (hy : lookupLast Y d = none) :
    lookupLast (if c then X else Y) d = none := by
  by_cases hc : c
  · rw [if_pos hc]
    exact hx
  · rw [if_neg hc]
    exact hy

/-- Lookup misses a singleton assignment to another date. -/
theorem lookupLast_single_none {a : Int × String} {d : Int} (h : a.1 ≠ d) :
    lookupLast [a] d = none := by
  apply lookupLast_none
  intro p hp
  rw [List.mem_singleton.mp hp]
  exact h

/-- Lookup misses a `_set_observed_date` block aimed at a far-away date. -/
theorem lookupLast_setObs_none (dt : Int) (name : String) {d : Int}
    (h : dt - 1 ≠ d ∧ dt ≠ d ∧ dt + 1 ≠ d) :
    lookupLast (setObservedDate dt name) d = none := by
  apply lookupLast_none
  intro p hp
  have hb := getObserved_cases dt
  rcases mem_setObservedDate hp with he | ⟨-, he⟩ <;> rw [he]
  · exact h.2.1
  · show getObserved dt ≠ d
    rw [hb]
    split_ifs <;> omega

/-- Lookup misses an `_add_with_observed` block aimed at a far-away date. -/
theorem lookupLast_awo_none (o : Bool) (year dt : Int) (name : String)
    {d : Int} (h : dt ≠ d ∧ dt + 1 ≠ d ∧ dt + 2 ≠ d) :
    lookupLast (addWithObserved o year dt name) d = none := by
  apply lookupLast_none
  intro p hp
  rcases mem_addWithObserved hp with he | ⟨-, -, -, he⟩ <;> rw [he]
  · exact h.1
  · show dt + (if isSaturday dt = true then 2 else 1) ≠ d
    split_ifs <;> omega

/-- Lookup misses an `_add_with_observed_day_off` block aimed at a far-away
date. -/
theorem lookupLast_awodo_none (o : Bool) (y m dd since : Int) (desc : String)
    (before after : Bool) {d : Int}
    (h : toRD y m dd - 1 ≠ d ∧ toRD y m dd ≠ d ∧ toRD y m dd + 1 ≠ d) :
    lookupLast (addWithObservedDayOff o y m dd desc since before after) d
      = none := by
  apply lookupLast_none
  intro p hp
  rcases mem_awodo hp with he | ⟨-, he⟩ | he <;> rw [he]
  · exact h.2.1
  · exact h.1
  · exact h.2.2

/-- The leap-day corrections of all months at once: zero through February,
a common zero-or-one value from March on. -/
theorem leapAdj_facts (y : Int) :
    leapAdj y 1 = 0 ∧ leapAdj y 2 = 0
    ∧ leapAdj y 3 = leapAdj y 12 ∧ leapAdj y 4 = leapAdj y 12
    ∧ leapAdj y 5 = leapAdj y 12 ∧ leapAdj y 6 = leapAdj y 12
    ∧ leapAdj y 7 = leapAdj y 12 ∧ leapAdj y 8 = leapAdj y 12
    ∧ leapAdj y 9 = leapAdj y 12 ∧ leapAdj y 10 = leapAdj y 12
    ∧ leapAdj y 11 = leapAdj y 12
    ∧ 0 ≤ leapAdj y 12 ∧ leapAdj y 12 ≤ 1 := by
  unfold leapAdj
  norm_num
  split_ifs <;> omega

/-- Unpacking a range check on a present lunisolar date. -/
theorem optInRange_some {v : Option Int} {lo hi dt : Int}
    (h : optInRange v lo hi = true) (hv : v = some dt) :
    lo ≤ dt ∧ dt ≤ hi := by
  subst hv
  simpa [optInRange] using h

/-- The assignment `_set_observed_date` performs, at its observed date. -/
theorem mem_setObservedDate_self (d : Int) (name : String) :
    (getObserved d,
      if getObserved d = d then name else name ++ " (Observed)")
      ∈ setObservedDate d name := by
  unfold setObservedDate
  by_cases h : getObserved d = d
  · rw [if_pos h, if_pos h, h]
    exact List.mem_singleton.mpr rfl
  · rw [if_neg h, if_neg h]
    exact List.mem_singleton.mpr rfl

/-- A Thailand `_add_with_observed` call assigns `name` to the raw date, and
its in-lieu entry (one or two days later) never shadows it. -/
theorem lookupLast_addWithObserved (o : Bool) (year dt : Int) (name : String) :
    lookupLast (addWithObserved o year dt name) dt = some name := by
  unfold addWithObserved
  rw [lookupLast_cons]
  have ht : lookupLast
      (if (1961 ≤ year ∧ year ≤ 1973) ∨ (1995 ≤ year ∧ year ≤ 1997) ∨ 2001 ≤ year then
        (if o = true ∧ isWeekend dt = true then
          [(dt + (if isSaturday dt = true then 2 else 1), name ++ " (in lieu)")]
        else [])
      else []) dt = none := by
    apply lookupLast_none
    intro p hp
    obtain ⟨-, hp⟩ := mem_ite_nil hp
    obtain ⟨-, hp⟩ := mem_ite_nil hp
    rw [List.mem_singleton.mp hp]
    split_ifs <;> omega
  rw [ht]
  simp [Option.elim]

/-- Every assignment of a Hungary populate run is one of the rule entries.
The Good-Friday disjunct records its 2017 era gate. -/
theorem hungary_mem {o : Bool} {y : Int} {p : Int × String}
    (hp : p ∈ hungaryEntries o y) :
    p ∈ addWithObservedDayOff o y 1 1 "Újév" 2014 true true
    ∨ p = (toRD y 12 31, "Újév előtti pihenőnap")
    ∨ p ∈ addWithObservedDayOff o y 3 15 "Nemzeti ünnep" 2010 true true
    ∨ (1950 ≤ y ∧ y ≤ 1989
       ∧ p = (toRD y 3 21, "A Tanácsköztársaság kikiáltásának ünnepe"))
    ∨ (1950 ≤ y ∧ y ≤ 1989 ∧ p = (toRD y 4 4, "A felszabadulás ünnepe"))
    ∨ p = (toRD y 11 7, "A nagy októberi szocialista forradalom ünnepe")
    ∨ (2017 ≤ y ∧ p = (wdOnOrBefore (easterRD y) 4, "Nagypéntek"))
    ∨ p = (easterRD y, "Húsvét")
    ∨ p = (easterRD y + 1, "Húsvét Hétfő")
    ∨ p = (easterRD y + 49, "Pünkösd")
    ∨ p = (easterRD y + 50, "Pünkösdhétfő")
    ∨ p ∈ addWithObservedDayOff o y 5 1 "A Munka ünnepe" 2010 true true
    ∨ p = (toRD y 5 2, "A Munka ünnepe")
    ∨ p = (toRD y 8 20, "A kenyér ünnepe")
    ∨ p ∈ addWithObservedDayOff o y 8 20 "Az államalapítás ünnepe" 2010 true true
    ∨ p ∈ addWithObservedDayOff o y 10 23 "Nemzeti ünnep" 2010 true true
    ∨ p ∈ addWithObservedDayOff o y 11 1 "Mindenszentek" 2010 true true
    ∨ p = (toRD y 12 24, "Szenteste")
    ∨ p = (toRD y 12 25, "Karácsony")
    ∨ p ∈ addWithObservedDayOff o y 12 26 "Karácsony másnapja" 2013 false true
    ∨ p = (toRD y 12 31, "Szilveszter") := by
  unfold hungaryEntries at hp
  simp only [List.mem_append, or_assoc] at hp
  rcases hp with h | h | h | h | h | h | h | h | h | h | h | h | h | h | h | h | h | h
  · exact Or.inl h
  · obtain ⟨-, h⟩ := mem_ite_nil h
    exact Or.inr (Or.inl (List.mem_singleton.mp h))
  · obtain ⟨-, h⟩ := mem_ite_nil h
    exact Or.inr (Or.inr (Or.inl h))
  · obtain ⟨hg, h⟩ := mem_ite_nil h
    rcases List.mem_append.mp h with h | h
    · rcases List.mem_cons.mp h with h | h
      · exact Or.inr (Or.inr (Or.inr (Or.inl ⟨hg.1, hg.2, h⟩)))
      · exact Or.inr (Or.inr (Or.inr (Or.inr (Or.inl
          ⟨hg.1, hg.2, List.mem_singleton.mp h⟩))))
    · obtain ⟨-, h⟩ := mem_ite_nil h
      exact Or.inr (Or.inr (Or.inr (Or.inr (Or.inr (Or.inl (List.mem_singleton.mp h))))))
  · obtain ⟨hy, h⟩ := mem_ite_nil h
    exact Or.inr (Or.inr (Or.inr (Or.inr (Or.inr (Or.inr (Or.inl
      ⟨hy, List.mem_singleton.mp h⟩))))))
  · refine Or.inr (Or.inr (Or.inr (Or.inr (Or.inr (Or.inr (Or.inr (Or.inl ?_)))))))
    exact List.mem_singleton.mp h
  · obtain ⟨-, h⟩ := mem_ite_nil h
    refine Or.inr (Or.inr (Or.inr (Or.inr (Or.inr (Or.inr (Or.inr (Or.inr (Or.inl ?_))))))))
    exact List.mem_singleton.mp h
  · refine Or.inr (Or.inr (Or.inr (Or.inr (Or.inr (Or.inr (Or.inr (Or.inr (Or.inr
      (Or.inl ?_)))))))))
    exact List.mem_singleton.mp h
  · obtain ⟨-, h⟩ := mem_ite_nil h
    refine Or.inr (Or.inr (Or.inr (Or.inr (Or.inr (Or.inr (Or.inr (Or.inr (Or.inr
      (Or.inr (Or.inl ?_))))))))))
    exact List.mem_singleton.mp h
  · obtain ⟨-, h⟩ := mem_ite_nil h
    refine Or.inr (Or.inr (Or.inr (Or.inr (Or.inr (Or.inr (Or.inr (Or.inr (Or.inr
      (Or.inr (Or.inr (Or.inl ?_)))))))))))
    exact h
  · obtain ⟨-, h⟩ := mem_ite_nil h
    refine Or.inr (Or.inr (Or.inr (Or.inr (Or.inr (Or.inr (Or.inr (Or.inr (Or.inr
      (Or.inr (Or.inr (Or.inr (Or.inl ?_))))))))))))
    exact List.mem_singleton.mp h
  · rcases mem_ite h with ⟨-, h⟩ | ⟨-, h⟩
    · refine Or.inr (Or.inr (Or.inr (Or.inr (Or.inr (Or.inr (Or.inr (Or.inr (Or.inr
        (Or.inr (Or.inr (Or.inr (Or.inr (Or.inl ?_)))))))))))))
      exact List.mem_singleton.mp h
    · refine Or.inr (Or.inr (Or.inr (Or.inr (Or.inr (Or.inr (Or.inr (Or.inr (Or.inr
        (Or.inr (Or.inr (Or.inr (Or.inr (Or.inr (Or.inl ?_))))))))))))))
      exact h
  · obtain ⟨-, h⟩ := mem_ite_nil h
    refine Or.inr (Or.inr (Or.inr (Or.inr (Or.inr (Or.inr (Or.inr (Or.inr (Or.inr
      (Or.inr (Or.inr (Or.inr (Or.inr (Or.inr (Or.inr (Or.inl ?_)))))))))))))))
    exact h
  · obtain ⟨-, h⟩ := mem_ite_nil h
    refine Or.inr (Or.inr (Or.inr (Or.inr (Or.inr (Or.inr (Or.inr (Or.inr (Or.inr
      (Or.inr (Or.inr (Or.inr (Or.inr (Or.inr (Or.inr (Or.inr (Or.inl ?_))))))))))))))))
    exact h
  · obtain ⟨-, h⟩ := mem_ite_nil h
    refine Or.inr (Or.inr (Or.inr (Or.inr (Or.inr (Or.inr (Or.inr (Or.inr (Or.inr
      (Or.inr (Or.inr (Or.inr (Or.inr (Or.inr (Or.inr (Or.inr (Or.inr
      (Or.inl ?_)))))))))))))))))
    exact List.mem_singleton.mp h
  · refine Or.inr (Or.inr (Or.inr (Or.inr (Or.inr (Or.inr (Or.inr (Or.inr (Or.inr
      (Or.inr (Or.inr (Or.inr (Or.inr (Or.inr (Or.inr (Or.inr (Or.inr (Or.inr
      (Or.inl ?_))))))))))))))))))
    exact List.mem_singleton.mp h
  · obtain ⟨-, h⟩ := mem_ite_nil h
    refine Or.inr (Or.inr (Or.inr (Or.inr (Or.inr (Or.inr (Or.inr (Or.inr (Or.inr
      (Or.inr (Or.inr (Or.inr (Or.inr (Or.inr (Or.inr (Or.inr (Or.inr (Or.inr (Or.inr
      (Or.inl ?_)))))))))))))))))))
    exact h
  · obtain ⟨-, h⟩ := mem_ite_nil h
    refine Or.inr (Or.inr (Or.inr (Or.inr (Or.inr (Or.inr (Or.inr (Or.inr (Or.inr
      (Or.inr (Or.inr (Or.inr (Or.inr (Or.inr (Or.inr (Or.inr (Or.inr (Or.inr (Or.inr
      (Or.inr ?_)))))))))))))))))))
    exact List.mem_singleton.mp h

/-- Every assignment of a `USGS` populate run is one of the rule entries.
The New Year disjunct records the Saturday guard. -/
theorem usgs_mem {y : Int} {p : Int × String} (hp : p ∈ usgsEntries y) :
    (isSaturday (toRD y 1 1) = false ∧ p ∈ setObservedDate (toRD y 1 1) "New Year's Day")
    ∨ p = (wdOnOrAfter (toRD y 1 1) 0 + 14, "Martin Luther King Jr. Day")
    ∨ p ∈ setObservedDate (toRD y 2 22) "Washington's Birthday"
    ∨ (1971 ≤ y ∧ p = (wdOnOrAfter (toRD y 2 1) 0 + 14, "Washington's Birthday"))
    ∨ p = (easterRD y - 2, "Good Friday")
    ∨ p ∈ setObservedDate (toRD y 5 30) "Memorial Day"
    ∨ p = (wdOnOrBefore (toRD y 5 31) 0, "Memorial Day")
    ∨ p ∈ setObservedDate (toRD y 6 19) "Juneteenth National Independence Day"
    ∨ p ∈ setObservedDate (toRD y 7 4) "Independence Day"
    ∨ p = (wdOnOrAfter (toRD y 9 1) 0, "Labor Day")
    ∨ p ∈ setObservedDate (toRD y 10 12) "Columbus Day"
    ∨ p ∈ setObservedDate (toRD y 11 11) "Veteran's Day"
    ∨ p = (wdOnOrAfter (toRD y 11 1) 3 + 21, "Thanksgiving Day")
    ∨ p ∈ setObservedDate (toRD y 12 25) "Christmas Day"
    ∨ p = (toRD y 10 30, "Hurricane Sandy")
    ∨ p = (toRD y 12 5, "Death of George H.W. Bush") := by
  unfold usgsEntries at hp
  simp only [List.mem_append, or_assoc] at hp
  rcases hp with h | h | h | h | h | h | h | h | h | h | h | h | h | h
  · obtain ⟨hg, h⟩ := mem_ite_nil h
    exact Or.inl ⟨hg, h⟩
  · obtain ⟨-, h⟩ := mem_ite_nil h
    exact Or.inr (Or.inl (List.mem_singleton.mp h))
  · rcases mem_ite h with ⟨-, h⟩ | ⟨hc, h⟩
    · exact Or.inr (Or.inr (Or.inl h))
    · exact Or.inr (Or.inr (Or.inr (Or.inl ⟨by omega, List.mem_singleton.mp h⟩)))
  · obtain ⟨-, h⟩ := mem_ite_nil h
    exact Or.inr (Or.inr (Or.inr (Or.inr (Or.inl (List.mem_singleton.mp h)))))
  · rcases mem_ite h with ⟨-, h⟩ | ⟨-, h⟩
    · exact Or.inr (Or.inr (Or.inr (Or.inr (Or.inr (Or.inl h)))))
    · exact Or.inr (Or.inr (Or.inr (Or.inr (Or.inr (Or.inr (Or.inl
        (List.mem_singleton.mp h)))))))
  · obtain ⟨-, h⟩ := mem_ite_nil h
    exact Or.inr (Or.inr (Or.inr (Or.inr (Or.inr (Or.inr (Or.inr (Or.inl h)))))))
  · exact Or.inr (Or.inr (Or.inr (Or.inr (Or.inr (Or.inr (Or.inr (Or.inr
      (Or.inl h))))))))
  · refine Or.inr (Or.inr (Or.inr (Or.inr (Or.inr (Or.inr (Or.inr (Or.inr (Or.inr
      (Or.inl ?_)))))))))
    exact List.mem_singleton.mp h
  · exact Or.inr (Or.inr (Or.inr (Or.inr (Or.inr (Or.inr (Or.inr (Or.inr (Or.inr
      (Or.inr (Or.inl h))))))))))
  · obtain ⟨-, h⟩ := mem_ite_nil h
    exact Or.inr (Or.inr (Or.inr (Or.inr (Or.inr (Or.inr (Or.inr (Or.inr (Or.inr
      (Or.inr (Or.inr (Or.inl h)))))))))))
  · refine Or.inr (Or.inr (Or.inr (Or.inr (Or.inr (Or.inr (Or.inr (Or.inr (Or.inr
      (Or.inr (Or.inr (Or.inr (Or.inl ?_))))))))))))
    exact List.mem_singleton.mp h
  · exact Or.inr (Or.inr (Or.inr (Or.inr (Or.inr (Or.inr (Or.inr (Or.inr (Or.inr
      (Or.inr (Or.inr (Or.inr (Or.inr (Or.inl h)))))))))))))
  · obtain ⟨-, h⟩ := mem_ite_nil h
    refine Or.inr (Or.inr (Or.inr (Or.inr (Or.inr (Or.inr (Or.inr (Or.inr (Or.inr
      (Or.inr (Or.inr (Or.inr (Or.inr (Or.inr (Or.inl ?_))))))))))))))
    exact List.mem_singleton.mp h
  · obtain ⟨-, h⟩ := mem_ite_nil h
    refine Or.inr (Or.inr (Or.inr (Or.inr (Or.inr (Or.inr (Or.inr (Or.inr (Or.inr
      (Or.inr (Or.inr (Or.inr (Or.inr (Or.inr (Or.inr ?_))))))))))))))
    exact List.mem_singleton.mp h

/-- Any valid month/day pair yields an ordinal between 1 January and
31 December of its year. -/
theorem toRD_within_year (y m d : Int) (hm : 1 ≤ m ∧ m ≤ 12)
    (hd : 1 ≤ d ∧ d ≤ 31) :
    toRD y 1 1 ≤ toRD y m d ∧ toRD y m d ≤ toRD y 12 31 := by
  have hm12 : m = 1 ∨ m = 2 ∨ m = 3 ∨ m = 4 ∨ m = 5 ∨ m = 6 ∨ m = 7 ∨ m = 8
      ∨ m = 9 ∨ m = 10 ∨ m = 11 ∨ m = 12 := by omega
  unfold toRD
  rcases Bool.eq_false_or_eq_true (isLeap y) with hb | hb <;>
    rcases hm12 with rfl | rfl | rfl | rfl | rfl | rfl | rfl | rfl | rfl | rfl | rfl | rfl <;>
      norm_num [hb, daysBeforeMonth, leapAdj] <;> omega

/-- Every special-table assignment carries a valid month/day literal of the
populated year, and never the label of a lunisolar feast. -/
theorem mem_thailandSpecials {y : Int} {p : Int × String}
    (hp : p ∈ thailandSpecials y) :
    ∃ m d s, p = (toRD y m d, s) ∧ 1 ≤ m ∧ m ≤ 12 ∧ 1 ≤ d ∧ d ≤ 31
      ∧ s ≠ "Makha Bucha" := by
  unfold thailandSpecials at hp
  cases hf : thailandSpecialRows.find? (fun e => e.1 == y) with
  | none =>
    rw [hf] at hp
    exact absurd hp (List.not_mem_nil p)
  | some e =>
    rw [hf] at hp
    rcases List.mem_map.mp hp with ⟨t, ht, rfl⟩
    have hall : ∀ r ∈ thailandSpecialRows, ∀ t ∈ r.2,
        1 ≤ t.1 ∧ t.1 ≤ 12 ∧ 1 ≤ t.2.1 ∧ t.2.1 ≤ 31 ∧ t.2.2 ≠ "Makha Bucha" := by
      decide
    have hb := hall e (List.mem_of_find?_eq_some hf) t ht
    exact ⟨t.1, t.2.1, t.2.2, rfl, hb.1, hb.2.1, hb.2.2.1, hb.2.2.2.1, hb.2.2.2.2⟩

/-- Every recorded Royal Ploughing Ceremony date is in May. -/
theorem raeknakhwanDates_range (y : Int) (md : Int × Int)
    (h : raeknakhwanDates y = some md) :
    md.1 = 5 ∧ 7 ≤ md.2 ∧ md.2 ≤ 17 := by
  unfold raeknakhwanDates at h
  cases hf : raeknakhwanRows.find? (fun e => e.1 == y) with
  | none =>
    rw [hf] at h
    exact Option.noConfusion h
  | some e =>
    rw [hf] at h
    have he : e.2 = md := by
      injection h
    have hall : ∀ r ∈ raeknakhwanRows, r.2.1 = 5 ∧ 7 ≤ r.2.2 ∧ r.2.2 ≤ 17 := by
      decide
    rw [← he]
    exact hall e (List.mem_of_find?_eq_some hf)

/-- Every assignment of the rule logic of a Thailand populate run is one of
the rule entries, with the observed-era gates of the in-lieu entries
recorded. -/
theorem thailand_mem {thls : ThaiLuniSolar} {o : Bool} {y : Int}
    {p : Int × String} (hp : p ∈ thailandGeneric thls o y) :
    p ∈ addWithObserved o y (toRD y 1 1) "New Year's Day"
    ∨ (o = true ∧ ((1995 ≤ y ∧ y ≤ 1997) ∨ 2001 ≤ y)
       ∧ (p = (toRD y 1 3, "New Year's Eve (in lieu)")
          ∨ p = (toRD y 1 2, "New Year's Eve (in lieu)")))
    ∨ p ∈ addWithObserved o y (toRD y 4 6) "Chakri Memorial Day"
    ∨ p ∈ addWithObserved o y (toRD y 4 13) "Songkran Festival"
    ∨ (p.2 = "Songkran Festival" ∧ toRD y 4 12 ≤ p.1 ∧ p.1 ≤ toRD y 4 15)
    ∨ (o = true ∧ ((1995 ≤ y ∧ y ≤ 1997) ∨ 2001 ≤ y)
       ∧ p.2 = "Songkran Festival (in lieu)"
       ∧ toRD y 4 15 ≤ p.1 ∧ p.1 ≤ toRD y 4 17)
    ∨ p ∈ addWithObserved o y (toRD y 5 1) "National Labour Day"
    ∨ p ∈ addWithObserved o y (toRD y 6 24) "National Day"
    ∨ p ∈ addWithObserved o y (toRD y 5 5) "Coronation Day"
    ∨ p ∈ addWithObserved o y (toRD y 5 4) "Coronation Day"
    ∨ p ∈ addWithObserved o y (toRD y 6 3) "HM Queen Suthida's Birthday"
    ∨ p ∈ addWithObserved o y (toRD y 7 28) "HM King Maha Vajiralongkorn's Birthday"
    ∨ p ∈ addWithObserved o y (toRD y 8 12) "HM Queen Sirikit's Birthday"
    ∨ p ∈ addWithObserved o y (toRD y 8 12) "HM Queen Sirikit The Queen Mother's Birthday"
    ∨ p ∈ addWithObserved o y (toRD y 4 15) "National Mother's Day"
    ∨ p ∈ addWithObserved o y (toRD y 8 12) "National Mother's Day"
    ∨ p ∈ addWithObserved o y (toRD y 10 13) "HM King Bhumibol Adulyadej Memorial Day"
    ∨ p ∈ addWithObserved o y (toRD y 10 23) "Chulalongkorn Memorial Day"
    ∨ p ∈ addWithObserved o y (toRD y 12 5) "HM King Bhumibol Adulyadej's Birthday"
    ∨ p ∈ addWithObserved o y (toRD y 12 5) "National Father's Day"
    ∨ p ∈ addWithObserved o y (toRD y 12 10) "Constitution Day"
    ∨ p = (toRD y 12 31, "New Year's Eve")
    ∨ (∃ dt, thls.makhaBucha y = some dt ∧ p ∈ addWithObserved o y dt "Makha Bucha")
    ∨ (∃ dt, thls.visakhaBucha y = some dt ∧ p ∈ addWithObserved o y dt "Visakha Bucha")
    ∨ (∃ dt, thls.asarnhaBucha y = some dt ∧ p = (dt, "Asarnha Bucha"))
    ∨ (∃ dt, thls.khaoPhansa y = some dt ∧ p = (dt, "Buddhist Lent Day"))
    ∨ (∃ dt, thls.asarnhaBucha y = some dt ∧ o = true
        ∧ ((1961 ≤ y ∧ y ≤ 1973) ∨ (1995 ≤ y ∧ y ≤ 1997) ∨ 2001 ≤ y)
        ∧ (p = (dt + 3, "Buddhist Lent Day (in lieu)")
           ∨ p = (dt + 2, "Asarnha Bucha (in lieu)")))
    ∨ (∃ md, raeknakhwanDates y = some md
        ∧ p ∈ addWithObserved o y (toRD y md.1 md.2) "Royal Ploughing Ceremony")
    ∨ p ∈ addWithObserved o y (toRD y 5 13) "Royal Ploughing Ceremony" := by
  unfold thailandGeneric at hp
  simp only [List.mem_append, or_assoc] at hp
  rcases hp with h | h | h | h | h | h | h | h | h | h | h | h | h | h | h | h | h | h
    | h | h | h | h | h | h
  · exact Or.inl h
  · obtain ⟨⟨ho, hera⟩, h⟩ := mem_ite_nil h
    rcases mem_ite h with ⟨-, h⟩ | ⟨-, h⟩
    · exact Or.inr (Or.inl ⟨ho, hera, Or.inl (List.mem_singleton.mp h)⟩)
    · obtain ⟨-, h⟩ := mem_ite_nil h
      exact Or.inr (Or.inl ⟨ho, hera, Or.inr (List.mem_singleton.mp h)⟩)
  · exact Or.inr (Or.inr (Or.inl h))
  · rcases mem_ite h with ⟨-, h⟩ | ⟨-, h⟩
    · refine Or.inr (Or.inr (Or.inr (Or.inr (Or.inl ?_))))
      rcases List.mem_cons.mp h with h | h
      · rw [h]
        refine ⟨rfl, ?_⟩
        unfold toRD
        omega
      · rcases List.mem_cons.mp h with h | h
        · rw [h]
          refine ⟨rfl, ?_⟩
          unfold toRD
          omega
        · rw [List.mem_singleton.mp h]
          refine ⟨rfl, ?_⟩
          unfold toRD
          omega
    · rcases mem_ite h with ⟨-, h⟩ | ⟨-, h⟩
      · exact Or.inr (Or.inr (Or.inr (Or.inl h)))
      · rcases mem_ite h with ⟨-, h⟩ | ⟨-, h⟩
        · refine Or.inr (Or.inr (Or.inr (Or.inr (Or.inl ?_))))
          rcases List.mem_cons.mp h with h | h
          · rw [h]
            refine ⟨rfl, ?_⟩
            unfold toRD
            omega
          · rcases List.mem_cons.mp h with h | h
            · rw [h]
              refine ⟨rfl, ?_⟩
              unfold toRD
              omega
            · rw [List.mem_singleton.mp h]
              refine ⟨rfl, ?_⟩
              unfold toRD
              omega
        · obtain ⟨-, h⟩ := mem_ite_nil h
          refine Or.inr (Or.inr (Or.inr (Or.inr (Or.inl ?_))))
          rcases List.mem_cons.mp h with h | h
          · rw [h]
            refine ⟨rfl, ?_⟩
            unfold toRD
            omega
          · rcases List.mem_cons.mp h with h | h
            · rw [h]
              refine ⟨rfl, ?_⟩
              unfold toRD
              omega
            · rw [List.mem_singleton.mp h]
              refine ⟨rfl, ?_⟩
              unfold toRD
              omega
  · obtain ⟨⟨ho, hera⟩, h⟩ := mem_ite_nil h
    refine Or.inr (Or.inr (Or.inr (Or.inr (Or.inr (Or.inl ⟨ho, hera, ?_⟩)))))
    rcases mem_ite h with ⟨-, h⟩ | ⟨-, h⟩
    · rw [List.mem_singleton.mp h]
      refine ⟨rfl, ?_⟩
      split_ifs <;> unfold toRD <;> omega
    · rcases mem_ite h with ⟨-, h⟩ | ⟨-, h⟩
      · rw [List.mem_singleton.mp h]
        refine ⟨rfl, ?_⟩
        split_ifs <;> unfold toRD <;> omega
      · obtain ⟨-, h⟩ := mem_ite_nil h
        rw [List.mem_singleton.mp h]
        refine ⟨rfl, ?_⟩
        split_ifs <;> unfold toRD <;> omega
  · obtain ⟨-, h⟩ := mem_ite_nil h
    exact Or.inr (Or.inr (Or.inr (Or.inr (Or.inr (Or.inr (Or.inl h))))))
  · obtain ⟨-, h⟩ := mem_ite_nil h
    exact Or.inr (Or.inr (Or.inr (Or.inr (Or.inr (Or.inr (Or.inr (Or.inl h)))))))
  · rcases mem_ite h with ⟨-, h⟩ | ⟨-, h⟩
    · exact Or.inr (Or.inr (Or.inr (Or.inr (Or.inr (Or.inr (Or.inr (Or.inr
        (Or.inl h))))))))
    · obtain ⟨-, h⟩ := mem_ite_nil h
      exact Or.inr (Or.inr (Or.inr (Or.inr (Or.inr (Or.inr (Or.inr (Or.inr (Or.inr
        (Or.inl h)))))))))
  · obtain ⟨-, h⟩ := mem_ite_nil h
    exact Or.inr (Or.inr (Or.inr (Or.inr (Or.inr (Or.inr (Or.inr (Or.inr (Or.inr
      (Or.inr (Or.inl h))))))))))
  · obtain ⟨-, h⟩ := mem_ite_nil h
    exact Or.inr (Or.inr (Or.inr (Or.inr (Or.inr (Or.inr (Or.inr (Or.inr (Or.inr
      (Or.inr (Or.inr (Or.inl h)))))))))))
  · rcases mem_ite h with ⟨-, h⟩ | ⟨-, h⟩
    · exact Or.inr (Or.inr (Or.inr (Or.inr (Or.inr (Or.inr (Or.inr (Or.inr (Or.inr
        (Or.inr (Or.inr (Or.inr (Or.inl h))))))))))))
    · obtain ⟨-, h⟩ := mem_ite_nil h
      exact Or.inr (Or.inr (Or.inr (Or.inr (Or.inr (Or.inr (Or.inr (Or.inr (Or.inr
        (Or.inr (Or.inr (Or.inr (Or.inr (Or.inl h)))))))))))))
  · rcases mem_ite h with ⟨-, h⟩ | ⟨-, h⟩
    · exact Or.inr (Or.inr (Or.inr (Or.inr (Or.inr (Or.inr (Or.inr (Or.inr (Or.inr
        (Or.inr (Or.inr (Or.inr (Or.inr (Or.inr (Or.inl h))))))))))))))
    · obtain ⟨-, h⟩ := mem_ite_nil h
      exact Or.inr (Or.inr (Or.inr (Or.inr (Or.inr (Or.inr (Or.inr (Or.inr (Or.inr
        (Or.inr (Or.inr (Or.inr (Or.inr (Or.inr (Or.inr (Or.inl h)))))))))))))))
  · obtain ⟨-, h⟩ := mem_ite_nil h
    exact Or.inr (Or.inr (Or.inr (Or.inr (Or.inr (Or.inr (Or.inr (Or.inr (Or.inr
      (Or.inr (Or.inr (Or.inr (Or.inr (Or.inr (Or.inr (Or.inr (Or.inl h))))))))))))))))
  · exact Or.inr (Or.inr (Or.inr (Or.inr (Or.inr (Or.inr (Or.inr (Or.inr (Or.inr
      (Or.inr (Or.inr (Or.inr (Or.inr (Or.inr (Or.inr (Or.inr (Or.inr
      (Or.inl h)))))))))))))))))
  · obtain ⟨-, h⟩ := mem_ite_nil h
    exact Or.inr (Or.inr (Or.inr (Or.inr (Or.inr (Or.inr (Or.inr (Or.inr (Or.inr
      (Or.inr (Or.inr (Or.inr (Or.inr (Or.inr (Or.inr (Or.inr (Or.inr (Or.inr
      (Or.inl h))))))))))))))))))
  · obtain ⟨-, h⟩ := mem_ite_nil h
    exact Or.inr (Or.inr (Or.inr (Or.inr (Or.inr (Or.inr (Or.inr (Or.inr (Or.inr
      (Or.inr (Or.inr (Or.inr (Or.inr (Or.inr (Or.inr (Or.inr (Or.inr (Or.inr (Or.inr
      (Or.inl h)))))))))))))))))))
  · exact Or.inr (Or.inr (Or.inr (Or.inr (Or.inr (Or.inr (Or.inr (Or.inr (Or.inr
      (Or.inr (Or.inr (Or.inr (Or.inr (Or.inr (Or.inr (Or.inr (Or.inr (Or.inr (Or.inr
      (Or.inr (Or.inl h))))))))))))))))))))
  · refine Or.inr (Or.inr (Or.inr (Or.inr (Or.inr (Or.inr (Or.inr (Or.inr (Or.inr
      (Or.inr (Or.inr (Or.inr (Or.inr (Or.inr (Or.inr (Or.inr (Or.inr (Or.inr (Or.inr
      (Or.inr (Or.inr (Or.inl ?_)))))))))))))))))))))
    exact List.mem_singleton.mp h
  · refine Or.inr (Or.inr (Or.inr (Or.inr (Or.inr (Or.inr (Or.inr (Or.inr (Or.inr
      (Or.inr (Or.inr (Or.inr (Or.inr (Or.inr (Or.inr (Or.inr (Or.inr (Or.inr (Or.inr
      (Or.inr (Or.inr (Or.inr (Or.inl ?_))))))))))))))))))))))
    cases hm : thls.makhaBucha y with
    | none =>
      rw [hm] at h
      exact absurd h (List.not_mem_nil p)
    | some dt =>
      rw [hm] at h
      exact ⟨dt, rfl, h⟩
  · refine Or.inr (Or.inr (Or.inr (Or.inr (Or.inr (Or.inr (Or.inr (Or.inr (Or.inr
      (Or.inr (Or.inr (Or.inr (Or.inr (Or.inr (Or.inr (Or.inr (Or.inr (Or.inr (Or.inr
      (Or.inr (Or.inr (Or.inr (Or.inr (Or.inl ?_)))))))))))))))))))))))
    cases hm : thls.visakhaBucha y with
    | none =>
      rw [hm] at h
      exact absurd h (List.not_mem_nil p)
    | some dt =>
      rw [hm] at h
      exact ⟨dt, rfl, h⟩
  · refine Or.inr (Or.inr (Or.inr (Or.inr (Or.inr (Or.inr (Or.inr (Or.inr (Or.inr
      (Or.inr (Or.inr (Or.inr (Or.inr (Or.inr (Or.inr (Or.inr (Or.inr (Or.inr (Or.inr
      (Or.inr (Or.inr (Or.inr (Or.inr (Or.inr (Or.inl ?_))))))))))))))))))))))))
    cases hm : thls.asarnhaBucha y with
    | none =>
      rw [hm] at h
      exact absurd h (List.not_mem_nil p)
    | some dt =>
      rw [hm] at h
      exact ⟨dt, rfl, List.mem_singleton.mp h⟩
  · refine Or.inr (Or.inr (Or.inr (Or.inr (Or.inr (Or.inr (Or.inr (Or.inr (Or.inr
      (Or.inr (Or.inr (Or.inr (Or.inr (Or.inr (Or.inr (Or.inr (Or.inr (Or.inr (Or.inr
      (Or.inr (Or.inr (Or.inr (Or.inr (Or.inr (Or.inr (Or.inl ?_)))))))))))))))))))))))))
    cases hm : thls.khaoPhansa y with
    | none =>
      rw [hm] at h
      exact absurd h (List.not_mem_nil p)
    | some dt =>
      rw [hm] at h
      exact ⟨dt, rfl, List.mem_singleton.mp h⟩
  · refine Or.inr (Or.inr (Or.inr (Or.inr (Or.inr (Or.inr (Or.inr (Or.inr (Or.inr
      (Or.inr (Or.inr (Or.inr (Or.inr (Or.inr (Or.inr (Or.inr (Or.inr (Or.inr (Or.inr
      (Or.inr (Or.inr (Or.inr (Or.inr (Or.inr (Or.inr (Or.inr
      (Or.inl ?_))))))))))))))))))))))))))
    cases hm : thls.asarnhaBucha y with
    | none =>
      rw [hm] at h
      exact absurd h (List.not_mem_nil p)
    | some dt =>
      rw [hm] at h
      obtain ⟨how, h⟩ := mem_ite_nil h
      rcases mem_ite h with ⟨-, h⟩ | ⟨-, h⟩
      · exact ⟨dt, rfl, how.1, how.2, Or.inl (List.mem_singleton.mp h)⟩
      · obtain ⟨-, h⟩ := mem_ite_nil h
        exact ⟨dt, rfl, how.1, how.2, Or.inr (List.mem_singleton.mp h)⟩
  · unfold raekSeg at h
    cases hm : raeknakhwanDates y with
    | none =>
      rw [hm] at h
      obtain ⟨-, h⟩ := mem_ite_nil h
      exact Or.inr (Or.inr (Or.inr (Or.inr (Or.inr (Or.inr (Or.inr (Or.inr (Or.inr
        (Or.inr (Or.inr (Or.inr (Or.inr (Or.inr (Or.inr (Or.inr (Or.inr (Or.inr (Or.inr
        (Or.inr (Or.inr (Or.inr (Or.inr (Or.inr (Or.inr (Or.inr (Or.inr
        (Or.inr h)))))))))))))))))))))))))))
    | some md =>
      rw [hm] at h
      refine Or.inr (Or.inr (Or.inr (Or.inr (Or.inr (Or.inr (Or.inr (Or.inr (Or.inr
        (Or.inr (Or.inr (Or.inr (Or.inr (Or.inr (Or.inr (Or.inr (Or.inr (Or.inr (Or.inr
        (Or.inr (Or.inr (Or.inr (Or.inr (Or.inr (Or.inr (Or.inr (Or.inr
        (Or.inl ⟨md, rfl, h⟩)))))))))))))))))))))))))))

/-- Outside the automatic in-lieu eras, `_add_with_observed` only performs
the raw assignment. -/
theorem awo_label_of_not_era {o : Bool} {year dt : Int} {name : String}
    {p : Int × String} (hp : p ∈ addWithObserved o year dt name)
    (hy : ¬((1961 ≤ year ∧ year ≤ 1973) ∨ (1995 ≤ year ∧ year ≤ 1997)
      ∨ 2001 ≤ year)) :
    p.2 = name := by
  rcases mem_addWithObserved hp with he | ⟨hera, -, -, -⟩
  · rw [snd_of_eq he]
  · exact absurd hera hy

/-- A lunisolar observed block never fires at a date avoided by every
possible raw date. -/
theorem lookupLast_lunisolarObservedSeg_none (o : Bool) (y : Int)
    (v : Option Int) (name : String) {d : Int}
    (h : ∀ dt, v = some dt → dt ≠ d ∧ dt + 1 ≠ d ∧ dt + 2 ≠ d) :
    lookupLast (lunisolarObservedSeg o y v name) d = none := by
  cases hv : v with
  | none =>
    simp only [lunisolarObservedSeg]
    rfl
  | some dt =>
    simp only [lunisolarObservedSeg]
    exact lookupLast_awo_none o y dt name (h dt hv)

/-- A raw lunisolar block never fires at a date avoided by every possible
raw date. -/
theorem lookupLast_lunisolarRawSeg_none (v : Option Int) (name : String)
    {d : Int} (h : ∀ dt, v = some dt → dt ≠ d) :
    lookupLast (lunisolarRawSeg v name) d = none := by
  cases hv : v with
  | none =>
    simp only [lunisolarRawSeg]
    rfl
  | some dt =>
    simp only [lunisolarRawSeg]
    exact lookupLast_single_none (h dt hv)

/-- The Asarnha Bucha in-lieu block never fires at a date avoided by both
possible shifted dates. -/
theorem lookupLast_asarnhaInLieuSeg_none (o : Bool) (y : Int)
    (v : Option Int) {d : Int}
    (h : ∀ dt, v = some dt → dt + 2 ≠ d ∧ dt + 3 ≠ d) :
    lookupLast (asarnhaInLieuSeg o y v) d = none := by
  cases hv : v with
  | none =>
    simp only [asarnhaInLieuSeg]
    rfl
  | some dt =>
    simp only [asarnhaInLieuSeg]
    apply lookupLast_none
    intro p hp
    obtain ⟨-, hp⟩ := mem_ite_nil hp
    rcases mem_ite hp with ⟨-, hp⟩ | ⟨-, hp⟩
    · rw [fst_of_eq (List.mem_singleton.mp hp)]
      exact (h dt hv).2
    · obtain ⟨-, hp⟩ := mem_ite_nil hp
      rw [fst_of_eq (List.mem_singleton.mp hp)]
      exact (h dt hv).1

/-- Every Royal Ploughing Ceremony assignment (table date or 13 May
fallback, with its possible in-lieu day) lands in the window 7 May to
19 May of the populated year. -/
theorem raekSeg_date_range {o : Bool} {y : Int} {p : Int × String}
    (hp : p ∈ raekSeg o y) :
    toRD y 5 7 ≤ p.1 ∧ p.1 ≤ toRD y 5 17 + 2 := by
  cases hm : raeknakhwanDates y with
  | none =>
    simp only [raekSeg, hm] at hp
    obtain ⟨-, hp⟩ := mem_ite_nil hp
    have hb := awo_date_range hp
    unfold toRD at hb ⊢
    norm_num [daysBeforeMonth] at hb ⊢
    omega
  | some md =>
    simp only [raekSeg, hm] at hp
    obtain ⟨h5, h7, h17⟩ := raeknakhwanDates_range y md hm
    have hb := awo_date_range hp
    rw [h5] at hb
    unfold toRD at hb ⊢
    norm_num [daysBeforeMonth] at hb ⊢
    omega

/-- Every label the Thailand rule logic can attach belongs to the closed
label list `thaiGenericLabels`. -/
theorem thailand_generic_labels {thls : ThaiLuniSolar} {o : Bool} {y : Int}
    {p : Int × String} (hp : p ∈ thailandGeneric thls o y) :
    p.2 ∈ thaiGenericLabels := by
  rcases thailand_mem hp with h | h | h | h | h | h | h | h | h | h | h | h | h | h | h
    | h | h | h | h | h | h | h | h | h | h | h | h | h | h
  all_goals first
    | (rcases mem_addWithObserved h with he | ⟨-, -, -, he⟩ <;>
        (rw [snd_of_eq he]; decide))
    | (obtain ⟨-, -, hor⟩ := h
       rcases hor with he | he <;> (rw [snd_of_eq he]; decide))
    | (rw [h.1]; decide)
    | (rw [h.2.2.1]; decide)
    | (rw [snd_of_eq h]; decide)
    | (obtain ⟨dt, -, hm⟩ := h
       rcases mem_addWithObserved hm with he | ⟨-, -, -, he⟩ <;>
         (rw [snd_of_eq he]; decide))
    | (obtain ⟨dt, -, he⟩ := h
       rw [snd_of_eq he]
       decide)
    | (obtain ⟨dt, -, -, -, hor⟩ := h
       rcases hor with he | he <;> (rw [snd_of_eq he]; decide))

/-- In 2011, every assignment of the Thailand rule logic (with observed set)
dates on or before 25 October or on or after 5 December, provided the
lunisolar feasts of 2011 fall in their plausible window. -/
theorem thailand_generic_2011_window {thls : ThaiLuniSolar}
    (ho : lunisolarPlausible thls 2011 = true) {p : Int × String}
    (hp : p ∈ thailandGeneric thls true 2011) :
    p.1 ≤ toRD 2011 10 25 ∨ toRD 2011 12 5 ≤ p.1 := by
  have hpl := ho
  unfold lunisolarPlausible at hpl
  simp only [Bool.and_eq_true] at hpl
  obtain ⟨⟨⟨h1, h2⟩, h3⟩, h4⟩ := hpl
  have hsep : toRD 2011 9 1 + 3 ≤ toRD 2011 10 25 := by decide
  rcases thailand_mem hp with h | h | h | h | h | h | h | h | h | h | h | h | h | h | h
    | h | h | h | h | h | h | h | h | h | h | h | h | h | h
  · exact Or.inl (le_trans (awo_date_range h).2 (by decide))
  · obtain ⟨-, -, hor⟩ := h
    rcases hor with he | he <;> (left; rw [fst_of_eq he]; decide)
  · exact Or.inl (le_trans (awo_date_range h).2 (by decide))
  · exact Or.inl (le_trans (awo_date_range h).2 (by decide))
  · exact Or.inl (le_trans h.2.2 (by decide))
  · exact Or.inl (le_trans h.2.2.2.2 (by decide))
  · exact Or.inl (le_trans (awo_date_range h).2 (by decide))
  · exact Or.inl (le_trans (awo_date_range h).2 (by decide))
  · exact Or.inl (le_trans (awo_date_range h).2 (by decide))
  · exact Or.inl (le_trans (awo_date_range h).2 (by decide))
  · exact Or.inl (le_trans (awo_date_range h).2 (by decide))
  · exact Or.inl (le_trans (awo_date_range h).2 (by decide))
  · exact Or.inl (le_trans (awo_date_range h).2 (by decide))
  · exact Or.inl (le_trans (awo_date_range h).2 (by decide))
  · exact Or.inl (le_trans (awo_date_range h).2 (by decide))
  · exact Or.inl (le_trans (awo_date_range h).2 (by decide))
  · exact Or.inl (le_trans (awo_date_range h).2 (by decide))
  · exact Or.inl (le_trans (awo_date_range h).2 (by decide))
  · exact Or.inr (le_trans (by decide) (awo_date_range h).1)
  · exact Or.inr (le_trans (by decide) (awo_date_range h).1)
  · exact Or.inr (le_trans (by decide) (awo_date_range h).1)
  · right
    rw [fst_of_eq h]
    decide
  · obtain ⟨dt, hdt, hm⟩ := h
    have hb := (optInRange_some h1 hdt).2
    have hr := (awo_date_range hm).2
    left
    omega
  · obtain ⟨dt, hdt, hm⟩ := h
    have hb := (optInRange_some h2 hdt).2
    have hr := (awo_date_range hm).2
    left
    omega
  · obtain ⟨dt, hdt, he⟩ := h
    have hb := (optInRange_some h3 hdt).2
    left
    rw [fst_of_eq he]
    omega
  · obtain ⟨dt, hdt, he⟩ := h
    have hb := (optInRange_some h4 hdt).2
    left
    rw [fst_of_eq he]
    omega
  · obtain ⟨dt, hdt, -, -, hor⟩ := h
    have hb := (optInRange_some h3 hdt).2
    rcases hor with he | he <;> (left; rw [fst_of_eq he]; omega)
  · obtain ⟨md, hmd, hm⟩ := h
    have h513 : raeknakhwanDates 2011 = some (5, 13) := by decide
    rw [h513] at hmd
    injection hmd with hmd
    rw [← hmd] at hm
    exact Or.inl (le_trans (awo_date_range hm).2 (by decide))
  · exact Or.inl (le_trans (awo_date_range h).2 (by decide))

/-! The claims. -/

/-- C1 counterexample: the claim places Hungary's 2017 "Nagypéntek" at
`easter(2017) - 1` (15 April 2017), but the populated map has no entry there;
the entry sits at `easter(2017) - 2` (14 April 2017, the Friday before
Easter Sunday). -/
theorem hungary_good_friday_minus_one_refuted :
    lookupLast (hungaryEntries true 2017) (easterRD 2017 - 1) ≠ some "Nagypéntek"
    ∧ lookupLast (hungaryEntries true 2017) (easterRD 2017 - 2)
      = some "Nagypéntek" := by
  constructor
  · decide
  · decide

/-- C1 (amended): for every year before 2017 the Hungary map carries no entry
labelled "Nagypéntek"; from 2017 onward it carries one at
`easter(year) - 2 days` (Good Friday, two days before Easter Sunday). -/
theorem hungary_good_friday_era :
    (∀ (o : Bool) (y : Int), y < 2017 →
      ∀ d, lookupLast (hungaryEntries o y) d ≠ some "Nagypéntek")
    ∧ (∀ (o : Bool) (y : Int), 2017 ≤ y →
      lookupLast (hungaryEntries o y) (easterRD y - 2) = some "Nagypéntek") := by
  constructor
  · intro o y hy d
    refine lookupLast_no_label _ _ ?_ d
    intro p hp
    rcases hungary_mem hp with h | h | h | h | h | h | h | h | h | h | h | h | h
      | h | h | h | h | h | h | h | h <;>
      first
        | exact absurd h.1 (by omega)
        | (rcases mem_awodo h with h | ⟨-, h⟩ | h <;> (rw [snd_of_eq h]; decide))
        | (rw [snd_of_eq h]; decide)
        | (rw [snd_of_eq h.2.2]; decide)
  · intro o y hy
    obtain ⟨he1, he2⟩ := easterRD_range y
    obtain ⟨la1, la2, la3, la4, la5, la6, la7, la8, la9, la10, la11, lb0, lb1⟩ :=
      leapAdj_facts y
    apply lookupLast_unique
    · show (easterRD y - 2, "Nagypéntek") ∈ hungaryEntries o y
      unfold hungaryEntries
      refine List.mem_append_left _ (List.mem_append_left _ (List.mem_append_left _
        (List.mem_append_left _ (List.mem_append_left _ (List.mem_append_left _
        (List.mem_append_left _ (List.mem_append_left _ (List.mem_append_left _
        (List.mem_append_left _ (List.mem_append_left _ (List.mem_append_left _
        (List.mem_append_left _ (List.mem_append_right _ ?_)))))))))))))
      rw [if_pos hy, wdOnOrBefore_easter]
      exact List.mem_singleton.mpr rfl
    · intro p hp hpd
      rcases hungary_mem hp with h | h | h | h | h | h | h | h | h | h | h | h | h
        | h | h | h | h | h | h | h | h
      · rcases mem_awodo h with h | ⟨-, h⟩ | h <;>
          (exfalso
           have hx := (fst_of_eq h).symm.trans hpd
           unfold toRD at hx he1 he2
           norm_num [daysBeforeMonth] at hx he1 he2
           omega)
      · exfalso
        have hx := (fst_of_eq h).symm.trans hpd
        unfold toRD at hx he1 he2
        norm_num [daysBeforeMonth] at hx he1 he2
        omega
      · rcases mem_awodo h with h | ⟨-, h⟩ | h <;>
          (exfalso
           have hx := (fst_of_eq h).symm.trans hpd
           unfold toRD at hx he1 he2
           norm_num [daysBeforeMonth] at hx he1 he2
           omega)
      · exact absurd h.2.1 (by omega)
      · exact absurd h.2.1 (by omega)
      · exfalso
        have hx := (fst_of_eq h).symm.trans hpd
        unfold toRD at hx he1 he2
        norm_num [daysBeforeMonth] at hx he1 he2
        omega
      · rw [h.2]
      · exfalso
        have hx := (fst_of_eq h).symm.trans hpd
        omega
      · exfalso
        have hx := (fst_of_eq h).symm.trans hpd
        omega
      · exfalso
        have hx := (fst_of_eq h).symm.trans hpd
        omega
      · exfalso
        have hx := (fst_of_eq h).symm.trans hpd
        omega
      · rcases mem_awodo h with h | ⟨-, h⟩ | h <;>
          (exfalso
           have hx := (fst_of_eq h).symm.trans hpd
           unfold toRD at hx he1 he2
           norm_num [daysBeforeMonth] at hx he1 he2
           omega)
      · exfalso
        have hx := (fst_of_eq h).symm.trans hpd
        unfold toRD at hx he1 he2
        norm_num [daysBeforeMonth] at hx he1 he2
        omega
      · exfalso
        have hx := (fst_of_eq h).symm.trans hpd
        unfold toRD at hx he1 he2
        norm_num [daysBeforeMonth] at hx he1 he2
        omega
      · rcases mem_awodo h with h | ⟨-, h⟩ | h <;>
          (exfalso
           have hx := (fst_of_eq h).symm.trans hpd
           unfold toRD at hx he1 he2
           norm_num [daysBeforeMonth] at hx he1 he2
           omega)
      · rcases mem_awodo h with h | ⟨-, h⟩ | h <;>
          (exfalso
           have hx := (fst_of_eq h).symm.trans hpd
           unfold toRD at hx he1 he2
           norm_num [daysBeforeMonth] at hx he1 he2
           omega)
      · rcases mem_awodo h with h | ⟨-, h⟩ | h <;>
          (exfalso
           have hx := (fst_of_eq h).symm.trans hpd
           unfold toRD at hx he1 he2
           norm_num [daysBeforeMonth] at hx he1 he2
           omega)
      · exfalso
        have hx := (fst_of_eq h).symm.trans hpd
        unfold toRD at hx he1 he2
        norm_num [daysBeforeMonth] at hx he1 he2
        omega
      · exfalso
        have hx := (fst_of_eq h).symm.trans hpd
        unfold toRD at hx he1 he2
        norm_num [daysBeforeMonth] at hx he1 he2
        omega
      · rcases mem_awodo h with h | ⟨-, h⟩ | h <;>
          (exfalso
           have hx := (fst_of_eq h).symm.trans hpd
           unfold toRD at hx he1 he2
           norm_num [daysBeforeMonth] at hx he1 he2
           omega)
      · exfalso
        have hx := (fst_of_eq h).symm.trans hpd
        unfold toRD at hx he1 he2
        norm_num [daysBeforeMonth] at hx he1 he2
        omega

/-- C1 witness: at the concrete years 2016 and 2018 the amended claim
evaluates as stated. -/
theorem hungary_good_friday_era_witness :
    lookupLast (hungaryEntries true 2016) (easterRD 2016 - 2) ≠ some "Nagypéntek"
    ∧ lookupLast (hungaryEntries true 2018) (easterRD 2018 - 2)
      = some "Nagypéntek" := by
  constructor
  · exact hungary_good_friday_era.1 true 2016 (by norm_num) _
  · exact hungary_good_friday_era.2 true 2018 (by norm_num)

/-- C3: with the USGS rules populated for 2023, 1 January 2023 is a Sunday
and New Year is observed on 2 January 2023; Good Friday coincides with the
third Friday after the March reference week (the Employment Situation
release) and therefore no entry labelled "Good Friday" exists. -/
theorem usgs_2023_new_year_no_good_friday :
    pyWeekday (toRD 2023 1 1) = 6
    ∧ lookupLast (usgsEntries 2023) (toRD 2023 1 2)
      = some "New Year's Day (Observed)"
    ∧ easterRD 2023 - 2 = wdOnOrAfter (toRD 2023 3 12 + 21) 4
    ∧ ∀ d, lookupLast (usgsEntries 2023) d ≠ some "Good Friday" := by
  refine ⟨by decide, by decide, by decide, ?_⟩
  exact lookupLast_no_label _ _ (by decide)

/-- C3 witness: the concrete lookup of 7 April 2023, the date of Good
Friday in 2023, reports no holiday at all. -/
theorem usgs_2023_new_year_no_good_friday_witness :
    lookupLast (usgsEntries 2023) (toRD 2023 4 7) ≠ some "Good Friday" :=
  usgs_2023_new_year_no_good_friday.2.2.2 (toRD 2023 4 7)

/-- C4: whenever 1 January falls on a Saturday, the USGS populate run
produces no New Year entry at all, neither plain nor observed, on any
date. -/
theorem usgs_saturday_new_year_skip :
    ∀ y : Int, pyWeekday (toRD y 1 1) = 5 →
      ∀ d, lookupLast (usgsEntries y) d ≠ some "New Year's Day"
        ∧ lookupLast (usgsEntries y) d ≠ some "New Year's Day (Observed)" := by
  intro y hy d
  have hsat : isSaturday (toRD y 1 1) = true := by
    unfold isSaturday
    rw [hy]
    decide
  have hno : ∀ p ∈ usgsEntries y,
      p.2 ≠ "New Year's Day" ∧ p.2 ≠ "New Year's Day (Observed)" := by
    intro p hp
    rcases usgs_mem hp with h | h | h | h | h | h | h | h | h | h | h | h | h
      | h | h | h
    · exact absurd hsat (by rw [h.1]; decide)
    · rw [snd_of_eq h]
      decide
    · rcases mem_setObservedDate h with he | ⟨-, he⟩ <;> (rw [snd_of_eq he]; decide)
    · rw [snd_of_eq h.2]
      decide
    · rw [snd_of_eq h]
      decide
    · rcases mem_setObservedDate h with he | ⟨-, he⟩ <;> (rw [snd_of_eq he]; decide)
    · rw [snd_of_eq h]
      decide
    · rcases mem_setObservedDate h with he | ⟨-, he⟩ <;> (rw [snd_of_eq he]; decide)
    · rcases mem_setObservedDate h with he | ⟨-, he⟩ <;> (rw [snd_of_eq he]; decide)
    · rw [snd_of_eq h]
      decide
    · rcases mem_setObservedDate h with he | ⟨-, he⟩ <;> (rw [snd_of_eq he]; decide)
    · rcases mem_setObservedDate h with he | ⟨-, he⟩ <;> (rw [snd_of_eq he]; decide)
    · rw [snd_of_eq h]
      decide
    · rcases mem_setObservedDate h with he | ⟨-, he⟩ <;> (rw [snd_of_eq he]; decide)
    · rw [snd_of_eq h]
      decide
    · rw [snd_of_eq h]
      decide
  exact ⟨lookupLast_no_label _ _ (fun p hp => (hno p hp).1) d,
    lookupLast_no_label _ _ (fun p hp => (hno p hp).2) d⟩

/-- C4 witness: 1 January 2022 and 1 January 2011 are Saturdays; the 2022
map has no New Year entry at 1 January 2022 nor an observed one on the
preceding Friday (31 December 2021), and likewise for 2011. -/
theorem usgs_saturday_new_year_skip_witness :
    pyWeekday (toRD 2022 1 1) = 5
    ∧ lookupLast (usgsEntries 2022) (toRD 2022 1 1) ≠ some "New Year's Day"
    ∧ lookupLast (usgsEntries 2022) (toRD 2021 12 31)
      ≠ some "New Year's Day (Observed)"
    ∧ lookupLast (usgsEntries 2011) (toRD 2011 1 1) ≠ some "New Year's Day" :=
  ⟨by decide,
    (usgs_saturday_new_year_skip 2022 (by decide) (toRD 2022 1 1)).1,
    (usgs_saturday_new_year_skip 2022 (by decide) (toRD 2021 12 31)).2,
    (usgs_saturday_new_year_skip 2011 (by decide) (toRD 2011 1 1)).1⟩

/-- C5: before 1971 the USGS rules place Washington's Birthday at 22
February moved by the Saturday-to-Friday / Sunday-to-Monday observed shift,
suffixing " (Observed)" exactly when the date moves. -/
theorem usgs_washington_pre1971 :
    ∀ y : Int, y < 1971 →
      lookupLast (usgsEntries y) (getObserved (toRD y 2 22))
        = some (if getObserved (toRD y 2 22) = toRD y 2 22
                then "Washington's Birthday"
                else "Washington's Birthday (Observed)") := by
  intro y hy
  obtain ⟨he1, he2⟩ := easterRD_range y
  obtain ⟨la1, la2, la3, la4, la5, la6, la7, la8, la9, la10, la11, lb0, lb1⟩ :=
    leapAdj_facts y
  have hob := getObserved_cases (toRD y 2 22)
  have hobr : toRD y 2 22 - 1 ≤ getObserved (toRD y 2 22)
      ∧ getObserved (toRD y 2 22) ≤ toRD y 2 22 + 1 := by
    rw [hob]
    split_ifs <;> omega
  apply lookupLast_unique
  · show (getObserved (toRD y 2 22), _) ∈ usgsEntries y
    have hl : (if getObserved (toRD y 2 22) = toRD y 2 22
          then "Washington's Birthday"
          else "Washington's Birthday" ++ " (Observed)")
        = (if getObserved (toRD y 2 22) = toRD y 2 22
          then "Washington's Birthday"
          else "Washington's Birthday (Observed)") := by
      split_ifs
      · rfl
      · decide
    have base := mem_setObservedDate_self (toRD y 2 22) "Washington's Birthday"
    rw [hl] at base
    unfold usgsEntries
    refine List.mem_append_left _ (List.mem_append_left _ (List.mem_append_left _
      (List.mem_append_left _ (List.mem_append_left _ (List.mem_append_left _
      (List.mem_append_left _ (List.mem_append_left _ (List.mem_append_left _
      (List.mem_append_left _ (List.mem_append_left _
      (List.mem_append_right _ ?_)))))))))))
    rw [if_pos hy]
    exact base
  · intro p hp hpd
    rcases usgs_mem hp with h | h | h | h | h | h | h | h | h | h | h | h | h
      | h | h | h
    · exfalso
      have hr := setObs_date_range h.2
      rw [hpd] at hr
      unfold toRD at hr hobr
      norm_num [daysBeforeMonth] at hr hobr
      omega
    · exfalso
      obtain ⟨hw1, hw2⟩ := wdOnOrAfter_bounds (toRD y 1 1) 0
      have hx := (fst_of_eq h).symm.trans hpd
      unfold toRD at hx hobr hw1 hw2
      norm_num [daysBeforeMonth] at hx hobr hw1 hw2
      omega
    · rcases mem_setObservedDate h with he | ⟨hne, he⟩
      · rw [snd_of_eq he, if_pos (hpd.symm.trans (fst_of_eq he))]
      · rw [snd_of_eq he, if_neg hne]
        decide
    · exact absurd h.1 (by omega)
    · exfalso
      have hx := (fst_of_eq h).symm.trans hpd
      unfold toRD at hx hobr he1 he2
      norm_num [daysBeforeMonth] at hx hobr he1 he2
      omega
    · exfalso
      have hr := setObs_date_range h
      rw [hpd] at hr
      unfold toRD at hr hobr
      norm_num [daysBeforeMonth] at hr hobr
      omega
    · exfalso
      obtain ⟨hw1, hw2⟩ := wdOnOrBefore_bounds (toRD y 5 31) 0
      have hx := (fst_of_eq h).symm.trans hpd
      unfold toRD at hx hobr hw1 hw2
      norm_num [daysBeforeMonth] at hx hobr hw1 hw2
      omega
    · exfalso
      have hr := setObs_date_range h
      rw [hpd] at hr
      unfold toRD at hr hobr
      norm_num [daysBeforeMonth] at hr hobr
      omega
    · exfalso
      have hr := setObs_date_range h
      rw [hpd] at hr
      unfold toRD at hr hobr
      norm_num [daysBeforeMonth] at hr hobr
      omega
    · exfalso
      obtain ⟨hw1, hw2⟩ := wdOnOrAfter_bounds (toRD y 9 1) 0
      have hx := (fst_of_eq h).symm.trans hpd
      unfold toRD at hx hobr hw1 hw2
      norm_num [daysBeforeMonth] at hx hobr hw1 hw2
      omega
    · exfalso
      have hr := setObs_date_range h
      rw [hpd] at hr
      unfold toRD at hr hobr
      norm_num [daysBeforeMonth] at hr hobr
      omega
    · exfalso
      have hr := setObs_date_range h
      rw [hpd] at hr
      unfold toRD at hr hobr
      norm_num [daysBeforeMonth] at hr hobr
      omega
    · exfalso
      obtain ⟨hw1, hw2⟩ := wdOnOrAfter_bounds (toRD y 11 1) 3
      have hx := (fst_of_eq h).symm.trans hpd
      unfold toRD at hx hobr hw1 hw2
      norm_num [daysBeforeMonth] at hx hobr hw1 hw2
      omega
    · exfalso
      have hr := setObs_date_range h
      rw [hpd] at hr
      unfold toRD at hr hobr
      norm_num [daysBeforeMonth] at hr hobr
      omega
    · exfalso
      have hx := (fst_of_eq h).symm.trans hpd
      unfold toRD at hx hobr
      norm_num [daysBeforeMonth] at hx hobr
      omega
    · exfalso
      have hx := (fst_of_eq h).symm.trans hpd
      unfold toRD at hx hobr
      norm_num [daysBeforeMonth] at hx hobr
      omega

/-- C5 witness: 22 February 1970 was a Sunday, so the 1970 map carries
"Washington's Birthday (Observed)" on 23 February 1970. -/
theorem usgs_washington_pre1971_witness :
    lookupLast (usgsEntries 1970) (toRD 1970 2 23)
      = some "Washington's Birthday (Observed)" := by
  have h := usgs_washington_pre1971 1970 (by norm_num)
  have hg : getObserved (toRD 1970 2 22) = toRD 1970 2 23 := by decide
  rw [hg] at h
  rw [h]
  norm_num
  decide

/-- C6: the Hungary map of 1955 has no "Húsvét Hétfő" (Easter Monday) and no
"Karácsony másnapja" (Second Christmas) entry, while the 1956 map carries
Easter Monday on the day after Easter. -/
theorem hungary_1955_1956_exclusions :
    (∀ (o : Bool) (d : Int),
      lookupLast (hungaryEntries o 1955) d ≠ some "Húsvét Hétfő")
    ∧ (∀ (o : Bool) (d : Int),
      lookupLast (hungaryEntries o 1955) d ≠ some "Karácsony másnapja")
    ∧ (∀ o : Bool, lookupLast (hungaryEntries o 1956) (easterRD 1956 + 1)
      = some "Húsvét Hétfő") := by
  refine ⟨?_, ?_, ?_⟩
  · intro o
    cases o <;> exact lookupLast_no_label _ _ (by decide)
  · intro o
    cases o <;> exact lookupLast_no_label _ _ (by decide)
  · intro o
    cases o <;> decide

/-- C6 witness: the concrete lookups behind the 1955/1956 exclusions:
11 April 1955 (the day after Easter 1955) and 26 December 1955 carry no
excluded label, and 2 April 1956 carries Easter Monday. -/
theorem hungary_1955_1956_exclusions_witness :
    lookupLast (hungaryEntries true 1955) (easterRD 1955 + 1)
      ≠ some "Húsvét Hétfő"
    ∧ lookupLast (hungaryEntries true 1955) (toRD 1955 12 26)
      ≠ some "Karácsony másnapja"
    ∧ lookupLast (hungaryEntries true 1956) (easterRD 1956 + 1)
      = some "Húsvét Hétfő" :=
  ⟨hungary_1955_1956_exclusions.1 true (easterRD 1955 + 1),
    hungary_1955_1956_exclusions.2.1 true (toRD 1955 12 26),
    hungary_1955_1956_exclusions.2.2 true⟩

/-- C7: under the generic observed path with the observed flag set, an
in-lieu entry "<name> (in lieu)" appears exactly when the raw date falls on
a weekend and the populated year lies in 1961-1973, 1995-1997 or 2001
onward, and it falls on the following Monday (raw + 2 for Saturday, raw + 1
for Sunday); moreover in 1974-1994 and 1998-2000 no in-lieu entry of any
kind is produced by the rule logic. -/
theorem thailand_in_lieu_policy :
    (∀ (year dt : Int) (name : String) (d : Int),
      (d, name ++ " (in lieu)") ∈ addWithObserved true year dt name
        ↔ (isWeekend dt = true
           ∧ ((1961 ≤ year ∧ year ≤ 1973) ∨ (1995 ≤ year ∧ year ≤ 1997)
              ∨ 2001 ≤ year)
           ∧ d = dt + (if isSaturday dt = true then 2 else 1)))
    ∧ (∀ y : Int, (1974 ≤ y ∧ y ≤ 1994) ∨ (1998 ≤ y ∧ y ≤ 2000) →
      ∀ (thls : ThaiLuniSolar) (o : Bool) (p : Int × String),
        p ∈ thailandGeneric thls o y → ∀ n : String, p.2 ≠ n ++ " (in lieu)") := by
  constructor
  · intro year dt name d
    constructor
    · intro h
      rcases mem_addWithObserved h with he | ⟨hera, -, hw, he⟩
      · exfalso
        have hs : name ++ " (in lieu)" = name := snd_of_eq he
        exact ne_self_append name " (in lieu)" (by decide) hs.symm
      · exact ⟨hw, hera, fst_of_eq he⟩
    · rintro ⟨hw, hera, rfl⟩
      unfold addWithObserved
      rw [if_pos hera, if_pos ⟨rfl, hw⟩]
      exact List.mem_cons_of_mem _ (List.mem_singleton.mpr rfl)
  · intro y hy thls o p hp n
    rcases thailand_mem hp with h | h | h | h | h | h | h | h | h | h | h | h | h
      | h | h | h | h | h | h | h | h | h | h | h | h | h | h | h | h
    · rw [awo_label_of_not_era h (by omega)]
      exact ne_append_of_take_rev _ n _ (by decide)
    · exact absurd h.2.1 (by omega)
    · rw [awo_label_of_not_era h (by omega)]
      exact ne_append_of_take_rev _ n _ (by decide)
    · rw [awo_label_of_not_era h (by omega)]
      exact ne_append_of_take_rev _ n _ (by decide)
    · rw [h.1]
      exact ne_append_of_take_rev _ n _ (by decide)
    · exact absurd h.2.1 (by omega)
    · rw [awo_label_of_not_era h (by omega)]
      exact ne_append_of_take_rev _ n _ (by decide)
    · rw [awo_label_of_not_era h (by omega)]
      exact ne_append_of_take_rev _ n _ (by decide)
    · rw [awo_label_of_not_era h (by omega)]
      exact ne_append_of_take_rev _ n _ (by decide)
    · rw [awo_label_of_not_era h (by omega)]
      exact ne_append_of_take_rev _ n _ (by decide)
    · rw [awo_label_of_not_era h (by omega)]
      exact ne_append_of_take_rev _ n _ (by decide)
    · rw [awo_label_of_not_era h (by omega)]
      exact ne_append_of_take_rev _ n _ (by decide)
    · rw [awo_label_of_not_era h (by omega)]
      exact ne_append_of_take_rev _ n _ (by decide)
    · rw [awo_label_of_not_era h (by omega)]
      exact ne_append_of_take_rev _ n _ (by decide)
    · rw [awo_label_of_not_era h (by omega)]
      exact ne_append_of_take_rev _ n _ (by decide)
    · rw [awo_label_of_not_era h (by omega)]
      exact ne_append_of_take_rev _ n _ (by decide)
    · rw [awo_label_of_not_era h (by omega)]
      exact ne_append_of_take_rev _ n _ (by decide)
    · rw [awo_label_of_not_era h (by omega)]
      exact ne_append_of_take_rev _ n _ (by decide)
    · rw [awo_label_of_not_era h (by omega)]
      exact ne_append_of_take_rev _ n _ (by decide)
    · rw [awo_label_of_not_era h (by omega)]
      exact ne_append_of_take_rev _ n _ (by decide)
    · rw [awo_label_of_not_era h (by omega)]
      exact ne_append_of_take_rev _ n _ (by decide)
    · rw [snd_of_eq h]
      exact ne_append_of_take_rev _ n _ (by decide)
    · obtain ⟨dt, -, hm⟩ := h
      rw [awo_label_of_not_era hm (by omega)]
      exact ne_append_of_take_rev _ n _ (by decide)
    · obtain ⟨dt, -, hm⟩ := h
      rw [awo_label_of_not_era hm (by omega)]
      exact ne_append_of_take_rev _ n _ (by decide)
    · obtain ⟨dt, -, he⟩ := h
      rw [snd_of_eq he]
      exact ne_append_of_take_rev _ n _ (by decide)
    · obtain ⟨dt, -, he⟩ := h
      rw [snd_of_eq he]
      exact ne_append_of_take_rev _ n _ (by decide)
    · obtain ⟨dt, -, -, hera, -⟩ := h
      exact absurd hera (by omega)
    · obtain ⟨md, -, hm⟩ := h
      rw [awo_label_of_not_era hm (by omega)]
      exact ne_append_of_take_rev _ n _ (by decide)
    · rw [awo_label_of_not_era h (by omega)]
      exact ne_append_of_take_rev _ n _ (by decide)

/-- C7 witness: 1 January 2022 fell on a Saturday, so the 2022 New Year rule
put its in-lieu on Monday 3 January 2022; 24 June 1975 (a Tuesday of the
no-in-lieu era, National Day raw date of that era) produced no such entry,
and even the weekend National Day of 22 June 1975 would not have: the
Sunday 22 June 1975 date produces no in-lieu in 1975. -/
theorem thailand_in_lieu_policy_witness :
    ((toRD 2022 1 3, "New Year's Day (in lieu)")
      ∈ addWithObserved true 2022 (toRD 2022 1 1) "New Year's Day")
    ∧ ¬((toRD 1975 6 23, "National Day (in lieu)")
      ∈ addWithObserved true 1975 (toRD 1975 6 22) "National Day") := by
  constructor
  · exact (thailand_in_lieu_policy.1 2022 (toRD 2022 1 1) "New Year's Day"
      (toRD 2022 1 3)).mpr (by decide)
  · intro hmem
    have h := (thailand_in_lieu_policy.1 1975 (toRD 1975 6 22) "National Day"
      (toRD 1975 6 23)).mp hmem
    have : (1961 ≤ (1975 : Int) ∧ (1975 : Int) ≤ 1973)
        ∨ (1995 ≤ (1975 : Int) ∧ (1975 : Int) ≤ 1997) ∨ 2001 ≤ (1975 : Int) :=
      h.2.1
    omega

/-- C9: populating Thailand for any year up to 1940 yields an empty map (the
populate returns before assigning anything), and whenever the lunisolar
lookup reports no Makha Bucha date for a year, the populated map for that
year has no entry labelled "Makha Bucha" — absence of data never raises. -/
theorem thailand_out_of_range_silent :
    (∀ (thls : ThaiLuniSolar) (o : Bool) (y : Int), y ≤ 1940 →
      thailandEntries thls o y = [])
    ∧ (∀ (thls : ThaiLuniSolar) (o : Bool) (y : Int),
      thls.makhaBucha y = none →
      ∀ d, lookupLast (thailandEntries thls o y) d ≠ some "Makha Bucha") := by
  constructor
  · intro thls o y hy
    unfold thailandEntries
    rw [if_pos hy]
  · intro thls o y hnone d
    refine lookupLast_no_label _ _ ?_ d
    intro p hp
    unfold thailandEntries at hp
    by_cases hy : y ≤ 1940
    · rw [if_pos hy] at hp
      exact absurd hp (List.not_mem_nil p)
    · rw [if_neg hy] at hp
      rcases List.mem_append.mp hp with hp | hp
      · obtain ⟨m, d2, s, he, -, -, -, -, hs⟩ := mem_thailandSpecials hp
        rw [snd_of_eq he]
        exact hs
      · rcases thailand_mem hp with h | h | h | h | h | h | h | h | h | h | h | h
          | h | h | h | h | h | h | h | h | h | h | h | h | h | h | h | h | h
        · rcases mem_addWithObserved h with he | ⟨-, -, -, he⟩ <;>
            (rw [snd_of_eq he]; decide)
        · rcases h.2.2 with he | he <;> (rw [snd_of_eq he]; decide)
        · rcases mem_addWithObserved h with he | ⟨-, -, -, he⟩ <;>
            (rw [snd_of_eq he]; decide)
        · rcases mem_addWithObserved h with he | ⟨-, -, -, he⟩ <;>
            (rw [snd_of_eq he]; decide)
        · rw [h.1]
          decide
        · rw [h.2.2.1]
          decide
        · rcases mem_addWithObserved h with he | ⟨-, -, -, he⟩ <;>
            (rw [snd_of_eq he]; decide)
        · rcases mem_addWithObserved h with he | ⟨-, -, -, he⟩ <;>
            (rw [snd_of_eq he]; decide)
        · rcases mem_addWithObserved h with he | ⟨-, -, -, he⟩ <;>
            (rw [snd_of_eq he]; decide)
        · rcases mem_addWithObserved h with he | ⟨-, -, -, he⟩ <;>
            (rw [snd_of_eq he]; decide)
        · rcases mem_addWithObserved h with he | ⟨-, -, -, he⟩ <;>
            (rw [snd_of_eq he]; decide)
        · rcases mem_addWithObserved h with he | ⟨-, -, -, he⟩ <;>
            (rw [snd_of_eq he]; decide)
        · rcases mem_addWithObserved h with he | ⟨-, -, -, he⟩ <;>
            (rw [snd_of_eq he]; decide)
        · rcases mem_addWithObserved h with he | ⟨-, -, -, he⟩ <;>
            (rw [snd_of_eq he]; decide)
        · rcases mem_addWithObserved h with he | ⟨-, -, -, he⟩ <;>
            (rw [snd_of_eq he]; decide)
        · rcases mem_addWithObserved h with he | ⟨-, -, -, he⟩ <;>
            (rw [snd_of_eq he]; decide)
        · rcases mem_addWithObserved h with he | ⟨-, -, -, he⟩ <;>
            (rw [snd_of_eq he]; decide)
        · rcases mem_addWithObserved h with he | ⟨-, -, -, he⟩ <;>
            (rw [snd_of_eq he]; decide)
        · rcases mem_addWithObserved h with he | ⟨-, -, -, he⟩ <;>
            (rw [snd_of_eq he]; decide)
        · rcases mem_addWithObserved h with he | ⟨-, -, -, he⟩ <;>
            (rw [snd_of_eq he]; decide)
        · rcases mem_addWithObserved h with he | ⟨-, -, -, he⟩ <;>
            (rw [snd_of_eq he]; decide)
        · rw [snd_of_eq h]
          decide
        · obtain ⟨dt, hdt, -⟩ := h
          rw [hnone] at hdt
          exact Option.noConfusion hdt
        · obtain ⟨dt, -, hm⟩ := h
          rcases mem_addWithObserved hm with he | ⟨-, -, -, he⟩ <;>
            (rw [snd_of_eq he]; decide)
        · obtain ⟨dt, -, he⟩ := h
          rw [snd_of_eq he]
          decide
        · obtain ⟨dt, -, he⟩ := h
          rw [snd_of_eq he]
          decide
        · obtain ⟨dt, -, -, -, hor⟩ := h
          rcases hor with he | he <;> (rw [snd_of_eq he]; decide)
        · obtain ⟨md, -, hm⟩ := h
          rcases mem_addWithObserved hm with he | ⟨-, -, -, he⟩ <;>
            (rw [snd_of_eq he]; decide)
        · rcases mem_addWithObserved h with he | ⟨-, -, -, he⟩ <;>
            (rw [snd_of_eq he]; decide)

/-- C9 witness: populating 1900 yields the empty list, and with the sample
calculator (which has no data for 1950) the 1950 map reports no Makha Bucha
on 3 March 1950. -/
theorem thailand_out_of_range_silent_witness :
    thailandEntries sampleThls true 1900 = []
    ∧ lookupLast (thailandEntries sampleThls true 1950) (toRD 1950 3 3)
      ≠ some "Makha Bucha" :=
  ⟨thailand_out_of_range_silent.1 sampleThls true 1900 (by norm_num),
    thailand_out_of_range_silent.2 sampleThls true 1950 (by decide)
      (toRD 1950 3 3)⟩

/-- C2: in the Thailand map of 2011 (observed set, lunisolar feasts in their
plausible window) the flood-lockdown label sits at 27, 28 and 31 October and
at no other date, every rule-logic entry survives into the final map
(specials are applied first, so the rule logic has precedence at a shared
date), and 29 October is absent. -/
theorem thailand_2011_floods (thls : ThaiLuniSolar)
    (ho : lunisolarPlausible thls 2011 = true) :
    lookupLast (thailandEntries thls true 2011) (toRD 2011 10 27)
      = some "Emergency Lockdown (2011 Thailand Floods)"
    ∧ lookupLast (thailandEntries thls true 2011) (toRD 2011 10 28)
      = some "Emergency Lockdown (2011 Thailand Floods)"
    ∧ lookupLast (thailandEntries thls true 2011) (toRD 2011 10 31)
      = some "Emergency Lockdown (2011 Thailand Floods)"
    ∧ (∀ d, lookupLast (thailandEntries thls true 2011) d
        = some "Emergency Lockdown (2011 Thailand Floods)" →
        d = toRD 2011 10 27 ∨ d = toRD 2011 10 28 ∨ d = toRD 2011 10 31)
    ∧ (∀ d l, lookupLast (thailandGeneric thls true 2011) d = some l →
        lookupLast (thailandEntries thls true 2011) d = some l)
    ∧ lookupLast (thailandEntries thls true 2011) (toRD 2011 10 29) = none := by
  have hsplit : thailandEntries thls true 2011
      = thailandSpecials 2011 ++ thailandGeneric thls true 2011 := by
    unfold thailandEntries
    rw [if_neg (by norm_num)]
  have hwin : ∀ p ∈ thailandGeneric thls true 2011,
      p.1 ≤ toRD 2011 10 25 ∨ toRD 2011 12 5 ≤ p.1 :=
    fun p hp => thailand_generic_2011_window ho hp
  have hflood : ∀ dd : Int,
      dd = toRD 2011 10 27 ∨ dd = toRD 2011 10 28 ∨ dd = toRD 2011 10 31 →
      lookupLast (thailandEntries thls true 2011) dd
        = some "Emergency Lockdown (2011 Thailand Floods)" := by
    intro dd hdd
    rw [hsplit]
    have hsu : ∀ q ∈ thailandSpecials 2011,
        (q.1 = toRD 2011 10 27 ∨ q.1 = toRD 2011 10 28
          ∨ q.1 = toRD 2011 10 31) →
        q.2 = "Emergency Lockdown (2011 Thailand Floods)" := by decide
    rcases hdd with rfl | rfl | rfl
    all_goals
      refine lookupLast_unique _ _ _ (List.mem_append_left _ (by decide)) ?_
      intro p hp hpd
      rcases List.mem_append.mp hp with hs | hg
      · exact hsu p hs (by
          first
            | exact Or.inl hpd
            | exact Or.inr (Or.inl hpd)
            | exact Or.inr (Or.inr hpd))
      · have hw := hwin p hg
        rw [hpd] at hw
        rcases hw with hw | hw
        · exact absurd hw (by decide)
        · exact absurd hw (by decide)
  refine ⟨hflood _ (Or.inl rfl), hflood _ (Or.inr (Or.inl rfl)),
    hflood _ (Or.inr (Or.inr rfl)), ?_, ?_, ?_⟩
  · intro d hl
    have hmem := lookupLast_mem _ _ _ hl
    rw [hsplit] at hmem
    rcases List.mem_append.mp hmem with hs | hg
    · exact (by decide : ∀ q ∈ thailandSpecials 2011,
        q.2 = "Emergency Lockdown (2011 Thailand Floods)" →
        q.1 = toRD 2011 10 27 ∨ q.1 = toRD 2011 10 28
          ∨ q.1 = toRD 2011 10 31)
        (d, "Emergency Lockdown (2011 Thailand Floods)") hs rfl
    · have hlab : "Emergency Lockdown (2011 Thailand Floods)" ∈ thaiGenericLabels :=
        thailand_generic_labels hg
      exact absurd hlab (by decide)
  · intro d l hl
    rw [hsplit]
    exact lookupLast_append_right_some _ _ _ _ hl
  · rw [hsplit]
    apply lookupLast_none
    intro p hp
    rcases List.mem_append.mp hp with hs | hg
    · exact (by decide : ∀ q ∈ thailandSpecials 2011,
        q.1 ≠ toRD 2011 10 29) p hs
    · have hw := hwin p hg
      intro hpd
      rw [hpd] at hw
      rcases hw with hw | hw
      · exact absurd hw (by decide)
      · exact absurd hw (by decide)

/-- C2 witness: with the sample lunisolar calculator (whose 2011 feasts are
the historical ones) the hypothesis holds and 29 October 2011 is absent from
the populated map. -/
theorem thailand_2011_floods_witness :
    lunisolarPlausible sampleThls 2011 = true
    ∧ lookupLast (thailandEntries sampleThls true 2011) (toRD 2011 10 29)
      = none :=
  ⟨by decide, (thailand_2011_floods sampleThls (by decide)).2.2.2.2.2⟩

/-- C8: a later assignment to a date is the label the map reports
(last-write-wins), and for Thailand from 1980 onward 5 December reports
"National Father's Day" — the later Father's Day assignment, not the earlier
King Bhumibol birthday assignment at the same date. -/
theorem thailand_last_write_wins :
    (∀ (es : List (Int × String)) (d : Int) (l : String),
      lookupLast (es ++ [(d, l)]) d = some l)
    ∧ (∀ (thls : ThaiLuniSolar) (o : Bool) (y : Int), 1980 ≤ y →
      lunisolarPlausible thls y = true →
      lookupLast (thailandEntries thls o y) (toRD y 12 5)
        = some "National Father's Day") := by
  constructor
  · intro es d l
    apply lookupLast_append_right_some
    simp [lookupLast]
  · intro thls o y hy hpl
    unfold lunisolarPlausible at hpl
    simp only [Bool.and_eq_true] at hpl
    obtain ⟨⟨⟨h1, h2⟩, h3⟩, h4⟩ := hpl
    obtain ⟨la1, la2, la3, la4, la5, la6, la7, la8, la9, la10, la11, lb0, lb1⟩ :=
      leapAdj_facts y
    have hsep : toRD y 9 1 + 3 < toRD y 12 5 := by
      unfold toRD
      norm_num [daysBeforeMonth]
      omega
    have h17 : lookupLast (addWithObserved o y (toRD y 12 10) "Constitution Day")
        (toRD y 12 5) = none :=
      lookupLast_awo_none _ _ _ _ (by unfold toRD; omega)
    have h18 : lookupLast [(toRD y 12 31, "New Year's Eve")] (toRD y 12 5)
        = none :=
      lookupLast_single_none
        (by show toRD y 12 31 ≠ toRD y 12 5; unfold toRD; omega)
    have h19 : lookupLast
        (lunisolarObservedSeg o y (thls.makhaBucha y) "Makha Bucha")
        (toRD y 12 5) = none :=
      lookupLast_lunisolarObservedSeg_none _ _ _ _
        (fun dt hdt => by have hb := (optInRange_some h1 hdt).2; omega)
    have h20 : lookupLast
        (lunisolarObservedSeg o y (thls.visakhaBucha y) "Visakha Bucha")
        (toRD y 12 5) = none :=
      lookupLast_lunisolarObservedSeg_none _ _ _ _
        (fun dt hdt => by have hb := (optInRange_some h2 hdt).2; omega)
    have h21 : lookupLast (lunisolarRawSeg (thls.asarnhaBucha y) "Asarnha Bucha")
        (toRD y 12 5) = none :=
      lookupLast_lunisolarRawSeg_none _ _
        (fun dt hdt => by have hb := (optInRange_some h3 hdt).2; omega)
    have h22 : lookupLast (lunisolarRawSeg (thls.khaoPhansa y) "Buddhist Lent Day")
        (toRD y 12 5) = none :=
      lookupLast_lunisolarRawSeg_none _ _
        (fun dt hdt => by have hb := (optInRange_some h4 hdt).2; omega)
    have h23 : lookupLast (asarnhaInLieuSeg o y (thls.asarnhaBucha y))
        (toRD y 12 5) = none :=
      lookupLast_asarnhaInLieuSeg_none _ _ _
        (fun dt hdt => by have hb := (optInRange_some h3 hdt).2; omega)
    have h24 : lookupLast (raekSeg o y) (toRD y 12 5) = none := by
      apply lookupLast_none
      intro p hp
      have hb := raekSeg_date_range hp
      intro he
      rw [he] at hb
      unfold toRD at hb
      norm_num [daysBeforeMonth] at hb
      omega
    have hgen : lookupLast (thailandGeneric thls o y) (toRD y 12 5)
        = some "National Father's Day" := by
      unfold thailandGeneric
      simp only [lookupLast_append, h17, h18, h19, h20, h21, h22, h23, h24,
        Option.elim]
      rw [if_pos hy, lookupLast_addWithObserved]
    unfold thailandEntries
    rw [if_neg (by omega : ¬y ≤ 1940), lookupLast_append, hgen]
    rfl

/-- C8 witness: at 2023 with the sample calculator the Thailand map reports
"National Father's Day" on 5 December. -/
theorem thailand_last_write_wins_witness :
    (1980 : Int) ≤ 2023
    ∧ lunisolarPlausible sampleThls 2023 = true
    ∧ lookupLast (thailandEntries sampleThls true 2023) (toRD 2023 12 5)
      = some "National Father's Day" :=
  ⟨by norm_num, by decide,
    thailand_last_write_wins.2 sampleThls true 2023 (by norm_num) (by decide)⟩

set_option maxHeartbeats 1600000 in
/-- C10: every assignment performed by populating year `y` — for Hungary,
USGS, and Thailand (the latter under plausibly-windowed lunisolar feasts) —
is dated between 1 January and 31 December of `y` itself. -/
theorem populate_within_year :
    (∀ (o : Bool) (y : Int), ∀ p ∈ hungaryEntries o y,
      toRD y 1 1 ≤ p.1 ∧ p.1 ≤ toRD y 12 31)
    ∧ (∀ y : Int, ∀ p ∈ usgsEntries y,
      toRD y 1 1 ≤ p.1 ∧ p.1 ≤ toRD y 12 31)
    ∧ (∀ (thls : ThaiLuniSolar) (o : Bool) (y : Int),
      lunisolarPlausible thls y = true →
      ∀ p ∈ thailandEntries thls o y,
      toRD y 1 1 ≤ p.1 ∧ p.1 ≤ toRD y 12 31) := by
  refine ⟨?_, ?_, ?_⟩
  · intro o y p hp
    obtain ⟨he1, he2⟩ := easterRD_range y
    obtain ⟨la1, la2, la3, la4, la5, la6, la7, la8, la9, la10, la11, lb0, lb1⟩ :=
      leapAdj_facts y
    rcases hungary_mem hp with h | h | h | h | h | h | h | h | h | h | h | h | h | h
      | h | h | h | h | h | h | h
    · rcases mem_awodo h with he | ⟨hg, he⟩ | he
      · rw [fst_of_eq he]
        unfold toRD
        norm_num [daysBeforeMonth]
        omega
      · exact absurd ⟨rfl, rfl⟩ hg
      · rw [fst_of_eq he]
        unfold toRD
        norm_num [daysBeforeMonth]
        omega
    · rw [fst_of_eq h]
      unfold toRD
      norm_num [daysBeforeMonth]
      omega
    · rcases mem_awodo h with he | ⟨-, he⟩ | he <;>
        (rw [fst_of_eq he]; unfold toRD; norm_num [daysBeforeMonth]; omega)
    · rw [fst_of_eq h.2.2]
      unfold toRD
      norm_num [daysBeforeMonth]
      omega
    · rw [fst_of_eq h.2.2]
      unfold toRD
      norm_num [daysBeforeMonth]
      omega
    · rw [fst_of_eq h]
      unfold toRD
      norm_num [daysBeforeMonth]
      omega
    · obtain ⟨-, he⟩ := h
      rw [fst_of_eq he, wdOnOrBefore_easter]
      unfold toRD at he1 he2 ⊢
      norm_num [daysBeforeMonth] at he1 he2 ⊢
      omega
    · rw [fst_of_eq h]
      unfold toRD at he1 he2 ⊢
      norm_num [daysBeforeMonth] at he1 he2 ⊢
      omega
    · rw [fst_of_eq h]
      unfold toRD at he1 he2 ⊢
      norm_num [daysBeforeMonth] at he1 he2 ⊢
      omega
    · rw [fst_of_eq h]
      unfold toRD at he1 he2 ⊢
      norm_num [daysBeforeMonth] at he1 he2 ⊢
      omega
    · rw [fst_of_eq h]
      unfold toRD at he1 he2 ⊢
      norm_num [daysBeforeMonth] at he1 he2 ⊢
      omega
    · rcases mem_awodo h with he | ⟨-, he⟩ | he <;>
        (rw [fst_of_eq he]; unfold toRD; norm_num [daysBeforeMonth]; omega)
    · rw [fst_of_eq h]
      unfold toRD
      norm_num [daysBeforeMonth]
      omega
    · rw [fst_of_eq h]
      unfold toRD
      norm_num [daysBeforeMonth]
      omega
    · rcases mem_awodo h with he | ⟨-, he⟩ | he <;>
        (rw [fst_of_eq he]; unfold toRD; norm_num [daysBeforeMonth]; omega)
    · rcases mem_awodo h with he | ⟨-, he⟩ | he <;>
        (rw [fst_of_eq he]; unfold toRD; norm_num [daysBeforeMonth]; omega)
    · rcases mem_awodo h with he | ⟨-, he⟩ | he <;>
        (rw [fst_of_eq he]; unfold toRD; norm_num [daysBeforeMonth]; omega)
    · rw [fst_of_eq h]
      unfold toRD
      norm_num [daysBeforeMonth]
      omega
    · rw [fst_of_eq h]
      unfold toRD
      norm_num [daysBeforeMonth]
      omega
    · rcases mem_awodo h with he | ⟨-, he⟩ | he <;>
        (rw [fst_of_eq he]; unfold toRD; norm_num [daysBeforeMonth]; omega)
    · rw [fst_of_eq h]
      unfold toRD
      norm_num [daysBeforeMonth]
      omega
  · intro y p hp
    obtain ⟨he1, he2⟩ := easterRD_range y
    obtain ⟨la1, la2, la3, la4, la5, la6, la7, la8, la9, la10, la11, lb0, lb1⟩ :=
      leapAdj_facts y
    rcases usgs_mem hp with h | h | h | h | h | h | h | h | h | h | h | h | h | h
      | h | h
    · obtain ⟨hsat, h⟩ := h
      simp only [isSaturday, decide_eq_false_iff_not] at hsat
      rcases mem_setObservedDate h with he | ⟨-, he⟩
      · rw [fst_of_eq he]
        unfold toRD
        norm_num [daysBeforeMonth]
        omega
      · rw [fst_of_eq he, getObserved_cases, if_neg hsat]
        split_ifs
        · unfold toRD
          norm_num [daysBeforeMonth]
          omega
        · unfold toRD
          norm_num [daysBeforeMonth]
          omega
    · rw [fst_of_eq h]
      have hb := wdOnOrAfter_bounds (toRD y 1 1) 0
      unfold toRD at hb ⊢
      norm_num [daysBeforeMonth] at hb ⊢
      omega
    · have hr := setObs_date_range h
      unfold toRD at hr ⊢
      norm_num [daysBeforeMonth] at hr ⊢
      omega
    · obtain ⟨-, he⟩ := h
      rw [fst_of_eq he]
      have hb := wdOnOrAfter_bounds (toRD y 2 1) 0
      unfold toRD at hb ⊢
      norm_num [daysBeforeMonth] at hb ⊢
      omega
    · rw [fst_of_eq h]
      unfold toRD at he1 he2 ⊢
      norm_num [daysBeforeMonth] at he1 he2 ⊢
      omega
    · have hr := setObs_date_range h
      unfold toRD at hr ⊢
      norm_num [daysBeforeMonth] at hr ⊢
      omega
    · rw [fst_of_eq h]
      have hb := wdOnOrBefore_bounds (toRD y 5 31) 0
      unfold toRD at hb ⊢
      norm_num [daysBeforeMonth] at hb ⊢
      omega
    · have hr := setObs_date_range h
      unfold toRD at hr ⊢
      norm_num [daysBeforeMonth] at hr ⊢
      omega
    · have hr := setObs_date_range h
      unfold toRD at hr ⊢
      norm_num [daysBeforeMonth] at hr ⊢
      omega
    · rw [fst_of_eq h]
      have hb := wdOnOrAfter_bounds (toRD y 9 1) 0
      unfold toRD at hb ⊢
      norm_num [daysBeforeMonth] at hb ⊢
      omega
    · have hr := setObs_date_range h
      unfold toRD at hr ⊢
      norm_num [daysBeforeMonth] at hr ⊢
      omega
    · have hr := setObs_date_range h
      unfold toRD at hr ⊢
      norm_num [daysBeforeMonth] at hr ⊢
      omega
    · rw [fst_of_eq h]
      have hb := wdOnOrAfter_bounds (toRD y 11 1) 3
      unfold toRD at hb ⊢
      norm_num [daysBeforeMonth] at hb ⊢
      omega
    · have hr := setObs_date_range h
      unfold toRD at hr ⊢
      norm_num [daysBeforeMonth] at hr ⊢
      omega
    · rw [fst_of_eq h]
      unfold toRD
      norm_num [daysBeforeMonth]
      omega
    · rw [fst_of_eq h]
      unfold toRD
      norm_num [daysBeforeMonth]
      omega
  · intro thls o y hpl p hp
    by_cases hy : y ≤ 1940
    · unfold thailandEntries at hp
      rw [if_pos hy] at hp
      exact absurd hp (List.not_mem_nil p)
    · unfold thailandEntries at hp
      rw [if_neg hy] at hp
      unfold lunisolarPlausible at hpl
      simp only [Bool.and_eq_true] at hpl
      obtain ⟨⟨⟨h1, h2⟩, h3⟩, h4⟩ := hpl
      obtain ⟨la1, la2, la3, la4, la5, la6, la7, la8, la9, la10, la11, lb0, lb1⟩ :=
        leapAdj_facts y
      have hsep : toRD y 9 1 + 3 ≤ toRD y 12 31 := by
        unfold toRD
        norm_num [daysBeforeMonth]
        omega
      rcases List.mem_append.mp hp with hs | hg
      · obtain ⟨m, d, s, he, hm1, hm2, hd1, hd2, -⟩ := mem_thailandSpecials hs
        rw [fst_of_eq he]
        exact toRD_within_year y m d ⟨hm1, hm2⟩ ⟨hd1, hd2⟩
      · rcases thailand_mem hg with h | h | h | h | h | h | h | h | h | h | h | h | h
          | h | h | h | h | h | h | h | h | h | h | h | h | h | h | h | h
        · have hr := awo_date_range h
          unfold toRD at hr ⊢
          norm_num [daysBeforeMonth] at hr ⊢
          omega
        · obtain ⟨-, -, hor⟩ := h
          rcases hor with he | he <;>
            (rw [fst_of_eq he]; unfold toRD; norm_num [daysBeforeMonth]; omega)
        · have hr := awo_date_range h
          unfold toRD at hr ⊢
          norm_num [daysBeforeMonth] at hr ⊢
          omega
        · have hr := awo_date_range h
          unfold toRD at hr ⊢
          norm_num [daysBeforeMonth] at hr ⊢
          omega
        · obtain ⟨-, hb1, hb2⟩ := h
          unfold toRD at hb1 hb2 ⊢
          norm_num [daysBeforeMonth] at hb1 hb2 ⊢
          omega
        · obtain ⟨-, -, -, hb1, hb2⟩ := h
          unfold toRD at hb1 hb2 ⊢
          norm_num [daysBeforeMonth] at hb1 hb2 ⊢
          omega
        · have hr := awo_date_range h
          unfold toRD at hr ⊢
          norm_num [daysBeforeMonth] at hr ⊢
          omega
        · have hr := awo_date_range h
          unfold toRD at hr ⊢
          norm_num [daysBeforeMonth] at hr ⊢
          omega
        · have hr := awo_date_range h
          unfold toRD at hr ⊢
          norm_num [daysBeforeMonth] at hr ⊢
          omega
        · have hr := awo_date_range h
          unfold toRD at hr ⊢
          norm_num [daysBeforeMonth] at hr ⊢
          omega
        · have hr := awo_date_range h
          unfold toRD at hr ⊢
          norm_num [daysBeforeMonth] at hr ⊢
          omega
        · have hr := awo_date_range h
          unfold toRD at hr ⊢
          norm_num [daysBeforeMonth] at hr ⊢
          omega
        · have hr := awo_date_range h
          unfold toRD at hr ⊢
          norm_num [daysBeforeMonth] at hr ⊢
          omega
        · have hr := awo_date_range h
          unfold toRD at hr ⊢
          norm_num [daysBeforeMonth] at hr ⊢
          omega
        · have hr := awo_date_range h
          unfold toRD at hr ⊢
          norm_num [daysBeforeMonth] at hr ⊢
          omega
        · have hr := awo_date_range h
          unfold toRD at hr ⊢
          norm_num [daysBeforeMonth] at hr ⊢
          omega
        · have hr := awo_date_range h
          unfold toRD at hr ⊢
          norm_num [daysBeforeMonth] at hr ⊢
          omega
        · have hr := awo_date_range h
          unfold toRD at hr ⊢
          norm_num [daysBeforeMonth] at hr ⊢
          omega
        · have hr := awo_date_range h
          unfold toRD at hr ⊢
          norm_num [daysBeforeMonth] at hr ⊢
          omega
        · have hr := awo_date_range h
          unfold toRD at hr ⊢
          norm_num [daysBeforeMonth] at hr ⊢
          omega
        · have hr := awo_date_range h
          unfold toRD at hr ⊢
          norm_num [daysBeforeMonth] at hr ⊢
          omega
        · rw [fst_of_eq h]
          unfold toRD
          norm_num [daysBeforeMonth]
          omega
        · obtain ⟨dt, hdt, hm⟩ := h
          have hb := optInRange_some h1 hdt
          have hr := awo_date_range hm
          omega
        · obtain ⟨dt, hdt, hm⟩ := h
          have hb := optInRange_some h2 hdt
          have hr := awo_date_range hm
          omega
        · obtain ⟨dt, hdt, he⟩ := h
          have hb := optInRange_some h3 hdt
          rw [fst_of_eq he]
          omega
        · obtain ⟨dt, hdt, he⟩ := h
          have hb := optInRange_some h4 hdt
          rw [fst_of_eq he]
          omega
        · obtain ⟨dt, hdt, -, -, hor⟩ := h
          have hb := optInRange_some h3 hdt
          rcases hor with he | he <;> (rw [fst_of_eq he]; omega)
        · obtain ⟨md, hmd, hm⟩ := h
          obtain ⟨hm5, hd7, hd17⟩ := raeknakhwanDates_range y md hmd
          have hr := awo_date_range hm
          rw [hm5] at hr
          unfold toRD at hr ⊢
          norm_num [daysBeforeMonth] at hr ⊢
          omega
        · have hr := awo_date_range h
          unfold toRD at hr ⊢
          norm_num [daysBeforeMonth] at hr ⊢
          omega

/-- C10 witness: the 27 October 2011 flood entry of the Thailand map (with
the sample calculator) is dated within 2011. -/
theorem populate_within_year_witness :
    lunisolarPlausible sampleThls 2011 = true
    ∧ toRD 2011 1 1 ≤ toRD 2011 10 27 ∧ toRD 2011 10 27 ≤ toRD 2011 12 31 :=
  ⟨by decide,
    populate_within_year.2.2 sampleThls true 2011 (by decide)
      (toRD 2011 10 27, "Emergency Lockdown (2011 Thailand Floods)")
      (by decide)⟩

end Holidays
